import Mathlib

/-!
# Avatar animation engine of bridge-ai (src/app.js)

A shallow embedding of the animation part of `src/app.js`: the avatar loader
(`loadAvatar` and its load callback), the frame loop (`animate`,
`updateHeadAndBody`, `updateFace`) and the module-level animation variables.

Modelling conventions.

* JavaScript numbers are exact rationals (`ℚ`); rounding of IEEE doubles is
  not modelled, except in the section on the talk envelope (`Rounded`), where
  the rounding of the progress quotient decides a branch.
* `Math.sin` is a parameter `sin : ℚ → ℚ`; theorems that need its range assume
  `-1 ≤ sin x ≤ 1`.
* Every `Math.random()` draw and every `Date.now()` reading is an explicit
  argument.
* Objects of the three.js scene graph carry an `id` standing for their object
  identity; a channel handle `{ mesh, index }` stores the id of its mesh.
* Assignments to `mesh.morphTargetInfluences[index]` and to bone rotations are
  returned as lists of writes, in program order.
* DOM updates, voice selection, camera placement and rendering do not touch the
  animation variables and are left out.
-/

namespace BridgeAI

/-! ## three.js helpers -/

/-- Modelled from the spec: the three.js helper `THREE.MathUtils.clamp`, which
is not part of src/.  It limits `value` to the range from `min` to `max`;
three.js computes `Math.max(min, Math.min(max, value))`. -/
def clamp (value lo hi : ℚ) : ℚ := max lo (min hi value)

/-- Modelled from the spec: the three.js helper `THREE.MathUtils.lerp`, which is
not part of src/.  three.js computes `(1 - t) * x + t * y`; over exact numbers
this is the glossary's `output + factor × (target − output)` (`lerp_eq`). -/
def lerp (x y t : ℚ) : ℚ := (1 - t) * x + t * y

/-! ## Data model -/

/-- A pair of coordinates `{ x, y }` (`headTarget`, `pointerNorm`, the x and y
components of `model.rotation`). -/
structure Vec2 where
  x : ℚ
  y : ℚ
deriving DecidableEq

/-- A node of a loaded glTF scene graph (`THREE.Object3D`). -/
inductive Object3D where
  | mk (id : Nat) (name : String) (isBone isMesh : Bool)
      (morphTargetDictionary : Option (List (String × Nat)))
      (children : List Object3D)

namespace Object3D

/-- Object identity. -/
def id : Object3D → Nat
  | mk i _ _ _ _ _ => i

/-- The field `name`. -/
def name : Object3D → String
  | mk _ n _ _ _ _ => n

/-- The flag `isBone`. -/
def isBone : Object3D → Bool
  | mk _ _ b _ _ _ => b

/-- The flag `isMesh`. -/
def isMesh : Object3D → Bool
  | mk _ _ _ m _ _ => m

/-- The field `morphTargetDictionary` (morph target name to slot index), absent
on objects without morph targets. -/
def morphTargetDictionary : Object3D → Option (List (String × Nat))
  | mk _ _ _ _ d _ => d

/-- The field `children`. -/
def children : Object3D → List Object3D
  | mk _ _ _ _ _ cs => cs

end Object3D

mutual
/-- Modelled from the spec: the visiting order of the three.js method
`Object3D.traverse`, which is not part of src/, a depth-first walk: the object
itself, then the traversal of each child in order. -/
def Object3D.nodes : Object3D → List Object3D
  | .mk i n b m d cs => .mk i n b m d cs :: nodesOfList cs
/-- Traversal of a list of children, one after the other. -/
def nodesOfList : List Object3D → List Object3D
  | [] => []
  | c :: cs => c.nodes ++ nodesOfList cs
end

/-- A channel handle `{ mesh: child, index: dict[name] }`; `mesh` is the id of
the mesh object. -/
structure Handle where
  mesh : Nat
  index : Nat
deriving DecidableEq

/-- The loaded `gltf.scene` held in the variable `model`: its root object and
the parts of the root's transform that the frame loop reads and writes. -/
structure Model where
  root : Object3D
  rotation : Vec2
  positionY : ℚ

/-- An entry of the table `AVATARS`. -/
structure Avatar where
  id : String
  label : String
  file : String
  gender : String
deriving DecidableEq

/-- The table `AVATARS`. -/
def AVATARS : List Avatar :=
  [ ⟨"muhammad", "Muhammad", "muhammad.glb", "male"⟩,
    ⟨"anna", "Anna", "anna.glb", "female"⟩,
    ⟨"aki", "Aki", "aki.glb", "male"⟩,
    ⟨"amari", "Amari", "amari.glb", "female"⟩,
    ⟨"leo", "Leo", "leo.glb", "male"⟩,
    ⟨"maya", "Maya", "maya.glb", "female"⟩,
    ⟨"rose", "Rose", "rose.glb", "female"⟩,
    ⟨"shonith", "Shonith", "shonith.glb", "male"⟩,
    ⟨"tom", "Tom", "tom.glb", "male"⟩,
    ⟨"wei", "Wei", "wei.glb", "female"⟩,
    ⟨"zara", "Zara", "zara.glb", "female"⟩,
    ⟨"zola", "Zola", "zola.glb", "female"⟩ ]

/-- The constant `DEFAULT_AVATAR_ID`. -/
def DEFAULT_AVATAR_ID : String := "muhammad"

/-- The module-level variables of `src/app.js` that the loader and the frame
loop read or write.  `scene` lists the ids of the model roots currently added
to the three.js scene (`none` before `initAvatar` has created the scene);
`pending` lists the `loader.load` requests whose callback has not run yet, each
with the `avatar` its callback captured; `disposed` lists the ids of the meshes
handed to `dispose`. -/
structure State where
  scene : Option (List Nat)
  model : Option Model
  mouthParts : List Handle
  eyeParts : List Handle
  smileParts : List Handle
  browParts : List Handle
  chestBone : Option Nat
  shoulderL : Option Nat
  shoulderR : Option Nat
  isTalking : Bool
  mouthValue : ℚ
  smileValue : ℚ
  browValue : ℚ
  nextBlinkTime : ℚ
  headTarget : Vec2
  lastPointerLookTime : ℚ
  nextIdleHeadTurn : ℚ
  speakStartTime : ℚ
  speakDuration : ℚ
  pointerInAvatar : Bool
  pointerNorm : Vec2
  currentAvatarId : String
  pending : List Avatar
  disposed : List Nat

/-- The values of the module-level `let` declarations; `now0` and `now1` are
the two `Date.now()` readings and `r0` the `Math.random()` draw. -/
def initialState (now0 r0 now1 : ℚ) : State where
  scene := none
  model := none
  mouthParts := []
  eyeParts := []
  smileParts := []
  browParts := []
  chestBone := none
  shoulderL := none
  shoulderR := none
  isTalking := false
  mouthValue := 0
  smileValue := 0.3
  browValue := 0.0
  nextBlinkTime := now0 + 2000 + r0 * 1200
  headTarget := ⟨0, 0⟩
  lastPointerLookTime := 0
  nextIdleHeadTurn := now1 + 3500
  speakStartTime := 0
  speakDuration := 1
  pointerInAvatar := false
  pointerNorm := ⟨0, 0⟩
  currentAvatarId := DEFAULT_AVATAR_ID
  pending := []
  disposed := []

/-! ## Avatar loader -/

/-- The function `disposeModel(obj)`: the ids of the meshes of `obj`, in
traversal order, whose geometry and material are disposed. -/
def disposeModel (obj : Object3D) : List Nat :=
  (obj.nodes.filter (fun child => child.isMesh)).map (fun child => child.id)

/-- The candidate list `mouthNames`. -/
def mouthNames : List String :=
  ["jawOpen", "mouthOpen", "viseme_aa", "viseme_OH", "MouthOpen", "v_aa"]

/-- The candidate list `eyeNames`. -/
def eyeNames : List String :=
  ["eyeBlinkLeft", "eyeBlinkRight", "eyesClosed", "blink", "EyeBlink_L", "EyeBlink_R"]

/-- The candidate list `smileNames`. -/
def smileNames : List String :=
  ["smile", "smileWide", "mouthSmile", "mouthSmileLeft", "mouthSmileBig", "mouthSmileRight"]

/-- The candidate list `browNames`. -/
def browNames : List String := ["browInnerUp", "browUp", "BrowsUp", "browRaise"]

/-- Whether the characters `pat` (given in lower case) start the list `cs`,
ignoring ASCII case, as a literal does under the regex flag `i`. -/
def startsWithCI : List Char → List Char → Bool
  | [], _ => true
  | _ :: _, [] => false
  | p :: ps, c :: cs => c.toLower == p && startsWithCI ps cs

/-- Whether the literal `pat` occurs somewhere in `cs`, ignoring ASCII case. -/
def containsCI (pat : List Char) : List Char → Bool
  | [] => startsWithCI pat []
  | c :: cs => startsWithCI pat (c :: cs) || containsCI pat cs

/-- The line terminators, the characters a regex `.` does not match. -/
def isLineTerminator (c : Char) : Bool :=
  c == '\n' || c == '\r' || c.toNat == 0x2028 || c.toNat == 0x2029

/-- Whether `.*c` matches at the start of the list: some run of characters
other than line terminators, then the letter `c` in either case. -/
def dotStarThen (c : Char) : List Char → Bool
  | [] => false
  | x :: xs => x.toLower == c || (!isLineTerminator x && dotStarThen c xs)

/-- Whether `shoulder.*c` (flag `i`) matches somewhere in the list. -/
def shoulderThen (c : Char) : List Char → Bool
  | [] => false
  | x :: xs =>
    (startsWithCI "shoulder".toList (x :: xs) && dotStarThen c ((x :: xs).drop 8))
      || shoulderThen c xs

/-- The test `/chest|spine2|upperchest/i.test(name)`. -/
def testChest (name : String) : Bool :=
  containsCI "chest".toList name.toList || containsCI "spine2".toList name.toList
    || containsCI "upperchest".toList name.toList

/-- The test `/shoulder.*(L|Left)/i.test(name)`; the alternative `Left`
matches only where `L` already does. -/
def testShoulderL (name : String) : Bool := shoulderThen 'l' name.toList

/-- The test `/shoulder.*(R|Right)/i.test(name)`; the alternative `Right`
matches only where `R` already does. -/
def testShoulderR (name : String) : Bool := shoulderThen 'r' name.toList

/-- The loop `for (let name of names) { if (dict[name] !== undefined) {
parts.push({ mesh: child, index: dict[name] }); break; } }`. -/
def pushFirst (dict : List (String × Nat)) (child : Object3D) :
    List String → List Handle → List Handle
  | [], parts => parts
  | name :: rest, parts =>
    match dict.lookup name with
    | some i => parts ++ [⟨child.id, i⟩]
    | none => pushFirst dict child rest parts

/-- The loop `for (let name of names) { if (dict[name] !== undefined) {
parts.push({ mesh: child, index: dict[name] }); } }`, without `break`. -/
def pushEvery (dict : List (String × Nat)) (child : Object3D) :
    List String → List Handle → List Handle
  | [], parts => parts
  | name :: rest, parts =>
    match dict.lookup name with
    | some i => pushEvery dict child rest (parts ++ [⟨child.id, i⟩])
    | none => pushEvery dict child rest parts

/-- The bone part of the `model.traverse` callback. -/
def visitBone (s : State) (child : Object3D) : State :=
  if child.isBone then
    let s1 := if s.chestBone.isNone && testChest child.name
      then { s with chestBone := some child.id } else s
    let s2 := if s1.shoulderL.isNone && testShoulderL child.name
      then { s1 with shoulderL := some child.id } else s1
    if s2.shoulderR.isNone && testShoulderR child.name
      then { s2 with shoulderR := some child.id } else s2
  else s

/-- The mesh part of the `model.traverse` callback. -/
def visitMesh (s : State) (child : Object3D) : State :=
  match child.isMesh, child.morphTargetDictionary with
  | true, some dict =>
    { s with
      mouthParts := pushFirst dict child mouthNames s.mouthParts
      eyeParts := pushEvery dict child eyeNames s.eyeParts
      smileParts := pushFirst dict child smileNames s.smileParts
      browParts := pushFirst dict child browNames s.browParts }
  | _, _ => s

/-- The callback passed to `model.traverse`. -/
def visit (s : State) (child : Object3D) : State :=
  visitMesh (visitBone s child) child

/-- The call `model.traverse(callback)`. -/
def traverse (s : State) (root : Object3D) : State :=
  root.nodes.foldl visit s

/-- The success callback of `loader.load`, for the `avatar` captured by the
closure and the loaded `gltf.scene`. -/
def onLoad (s : State) (avatar : Avatar) (gltf : Model) : State :=
  if avatar.id ≠ s.currentAvatarId then
    { s with disposed := s.disposed ++ disposeModel gltf.root }
  else
    traverse
      { s with
        model := some gltf
        scene := s.scene.map (fun sc => sc ++ [gltf.root.id]) }
      gltf.root

/-- The function `loadAvatar(avatarId)`. -/
def loadAvatar (s : State) (avatarId : String) : State :=
  match s.scene with
  | none => s
  | some sc =>
    match (AVATARS.find? (fun a => a.id == avatarId)).orElse (fun _ => AVATARS.head?) with
    | none => s
    | some avatar =>
      if s.currentAvatarId = avatar.id ∧ s.model.isSome then s
      else
        let s1 : State :=
          { s with
            currentAvatarId := avatar.id
            mouthParts := []
            eyeParts := []
            smileParts := []
            browParts := []
            chestBone := none
            shoulderL := none
            shoulderR := none }
        let s2 : State :=
          match s1.model with
          | some m =>
            { s1 with
              scene := some (sc.erase m.root.id)
              disposed := s1.disposed ++ disposeModel m.root
              model := none }
          | none => s1
        { s2 with pending := s2.pending ++ [avatar] }

/-- The loader calls the success callback of the request at position `i` of
`pending` with the scene it loaded. -/
def loadCompleted (s : State) (i : Nat) (gltf : Model) : State :=
  match s.pending.get? i with
  | none => s
  | some avatar => onLoad { s with pending := s.pending.eraseIdx i } avatar gltf

/-- The loader calls the error callback of the request at position `i` of
`pending`; the callback only reports the error. -/
def loadFailed (s : State) (i : Nat) : State :=
  { s with pending := s.pending.eraseIdx i }

/-- The function `initAvatar()`, as far as the animation variables go: it
creates the scene and requests the default avatar. -/
def initAvatar (s : State) (hasContainer : Bool) : State :=
  if hasContainer then loadAvatar { s with scene := some [] } DEFAULT_AVATAR_ID else s

/-! ## Frame loop -/

/-- The `Math.random()` draws one call of `animate` may consume: `blink` for
rescheduling the blink, `headY`, `headX` and `idle` for the idle head turn. -/
structure Rnd where
  blink : ℚ
  headY : ℚ
  headX : ℚ
  idle : ℚ

/-- An assignment `p.mesh.morphTargetInfluences[p.index] = value`. -/
structure MorphWrite where
  handle : Handle
  value : ℚ

/-- An assignment to a bone: `chestBone.rotation.x = value` or
`shoulder.rotation.z = value`, with the id of the bone. -/
inductive BoneWrite where
  | rotationX (bone : Nat) (value : ℚ)
  | rotationZ (bone : Nat) (value : ℚ)

/-- What one call of `animate` leaves behind: the new values of the variables
and the assignments made, in program order. -/
structure Frame where
  state : State
  eyeWrites : List MorphWrite
  boneWrites : List BoneWrite
  faceWrites : List MorphWrite

/-- The blink block of `animate`: the value `blinkVal` and the new value of
`nextBlinkTime`; `r` is the `Math.random()` draw. -/
def blinkStep (now nextBlinkTime r : ℚ) : ℚ × ℚ :=
  if now > nextBlinkTime then
    if now < nextBlinkTime + 130 then (1, nextBlinkTime)
    else (0, now + 2000 + r * 2000)
  else (0, nextBlinkTime)

/-- The head-target block of `updateHeadAndBody`: the new `headTarget` and
`nextIdleHeadTurn`. -/
def headTargetStep (sin : ℚ → ℚ) (s : State) (now t : ℚ) (rnd : Rnd) : Vec2 × ℚ :=
  if !s.isTalking then
    let sinceLook := now - s.lastPointerLookTime
    if s.pointerInAvatar && decide (sinceLook < 2500) then
      (⟨clamp (-s.pointerNorm.y * 0.2) (-0.2) 0.2, clamp (s.pointerNorm.x * 0.35) (-0.35) 0.35⟩,
        s.nextIdleHeadTurn)
    else
      if now > s.nextIdleHeadTurn then
        (⟨(rnd.headX - 0.5) * 0.12, (rnd.headY - 0.5) * 0.35⟩, now + 2000 + rnd.idle * 4000)
      else (s.headTarget, s.nextIdleHeadTurn)
  else
    (⟨sin (t * 1.6) * 0.03, sin (t * 1.2) * 0.08⟩, s.nextIdleHeadTurn)

/-- The function `updateHeadAndBody(now, t)`; `m` is the value of the variable
`model`, which `animate` has checked to be set. -/
def updateHeadAndBody (sin : ℚ → ℚ) (s : State) (m : Model) (now t : ℚ) (rnd : Rnd) :
    State × List BoneWrite :=
  let breathe := sin (t * 1.4) * 0.015
  let chest : List BoneWrite :=
    match s.chestBone with
    | some b => [BoneWrite.rotationX b (sin (t * 1.5) * 0.04)]
    | none => []
  let shoulders : List BoneWrite :=
    match s.shoulderL, s.shoulderR with
    | some l, some r =>
      [BoneWrite.rotationZ l (sin (t * 0.8) * 0.03), BoneWrite.rotationZ r (-sin (t * 0.8) * 0.03)]
    | _, _ => []
  let h := headTargetStep sin s now t rnd
  let rotY := lerp m.rotation.y h.1.y 0.08
  let rotX := lerp m.rotation.x h.1.x 0.08
  ({ s with
      headTarget := h.1
      nextIdleHeadTurn := h.2
      model := some { m with positionY := breathe, rotation := ⟨rotX, rotY⟩ } },
    chest ++ shoulders)

/-- The value `noise` of `updateFace`. -/
def noise (sin : ℚ → ℚ) (t : ℚ) : ℚ :=
  0.6 * (sin (t * 8.2) * 0.5 + 0.5) + 0.4 * (sin (t * 11.7 + 1.5) * 0.5 + 0.5)

/-- The value `progress` of `updateFace`, with exact quotients.  It equals the
value the code computes whenever both quotients are exactly representable;
`Rounded.progress` rounds them as the arithmetic of doubles does. -/
def progress (s : State) (now : ℚ) : ℚ :=
  clamp ((now - s.speakStartTime) / 1000 / s.speakDuration) 0 1

/-- The value `targetMouth` of `updateFace`. -/
def targetMouth (sin : ℚ → ℚ) (s : State) (now t : ℚ) : ℚ :=
  let base : ℚ := if progress s now < 0.07 ∨ progress s now > 0.97 then 0.1 else 0.4
  base + 0.55 * noise sin t

/-- The function `updateFace(now, t)`. -/
def updateFace (sin : ℚ → ℚ) (s : State) (now t : ℚ) : State × List MorphWrite :=
  let s1 : State :=
    if s.isTalking then
      { s with
        mouthValue := lerp s.mouthValue (targetMouth sin s now t) 0.35
        smileValue := lerp s.smileValue 0.5 0.15
        browValue := lerp s.browValue 0.25 0.18 }
    else
      { s with
        mouthValue := lerp s.mouthValue 0 0.18
        smileValue := lerp s.smileValue 0.25 0.05
        browValue := lerp s.browValue 0.02 0.05 }
  (s1,
    s1.mouthParts.map (fun p => ⟨p, s1.mouthValue⟩)
      ++ s1.smileParts.map (fun p => ⟨p, s1.smileValue⟩)
      ++ s1.browParts.map (fun p => ⟨p, s1.browValue⟩))

/-- The function `animate()`, for the reading `now` of `Date.now()` and the
random draws `rnd`. -/
def animate (sin : ℚ → ℚ) (s : State) (now : ℚ) (rnd : Rnd) : Frame :=
  let t := now * 0.001
  match s.model with
  | none => ⟨s, [], [], []⟩
  | some m =>
    let b := blinkStep now s.nextBlinkTime rnd.blink
    let s1 : State := { s with nextBlinkTime := b.2 }
    let eye : List MorphWrite := s1.eyeParts.map (fun p => ⟨p, b.1⟩)
    let hb := updateHeadAndBody sin s1 m now t rnd
    let f := updateFace sin hb.1 now t
    ⟨f.1, eye, hb.2, f.2⟩

/-! ## Pointer and speech events -/

/-- The `pointerenter` listener. -/
def pointerEnter (s : State) : State := { s with pointerInAvatar := true }

/-- The `pointerleave` listener. -/
def pointerLeave (s : State) : State := { s with pointerInAvatar := false }

/-- The `pointermove` listener, for the event position `clientX`, `clientY`, the
bounding rectangle of the avatar container and the reading `now` of
`Date.now()`.  For a rectangle of positive width and height; for a zero width
or height the listener computes an infinity or NaN, which the rationals do not
have. -/
def pointerMove (s : State) (clientX clientY left top width height now : ℚ) : State :=
  let x := (clientX - left) / width
  let y := (clientY - top) / height
  { s with pointerNorm := ⟨x * 2 - 1, y * 2 - 1⟩, lastPointerLookTime := now }

/-- The constant `CHAR_PER_SECOND`. -/
def CHAR_PER_SECOND : ℚ := 14

/-- The `utterance.onstart` handler of `speakText`, for `len = text.length` and
the reading `now` of `Date.now()`. -/
def onstart (s : State) (len : ℕ) (now : ℚ) : State :=
  { s with
    isTalking := true
    speakDuration := max 1.5 ((len : ℚ) / CHAR_PER_SECOND)
    speakStartTime := now }

/-- The `utterance.onend` handler of `speakText`. -/
def onend (s : State) : State := { s with isTalking := false }

/-! ## Reachability for the face values -/

/-- States reached from the initial face values by calls of `animate` and by
any code outside the frame loop.  Only `updateFace` assigns `mouthValue`,
`smileValue` and `browValue`; everything else (speech events setting
`isTalking`, `speakStartTime` and `speakDuration`, pointer events, the loader)
may change any other variable, which `outside` allows without restriction.
A frame runs with a positive `speakDuration`. -/
inductive FaceReachable (sin : ℚ → ℚ) : State → Prop
  | start (s : State) :
      s.mouthValue = 0 → s.smileValue = 0.3 → s.browValue = 0 → FaceReachable sin s
  | outside (s s' : State) :
      FaceReachable sin s → s'.mouthValue = s.mouthValue → s'.smileValue = s.smileValue →
      s'.browValue = s.browValue → FaceReachable sin s'
  | frame (s : State) (now : ℚ) (rnd : Rnd) :
      FaceReachable sin s → 0 < s.speakDuration →
      FaceReachable sin (animate sin s now rnd).state

/-- The three face values lie in the unit interval. -/
def FaceInRange (s : State) : Prop :=
  (0 ≤ s.mouthValue ∧ s.mouthValue ≤ 1) ∧ (0 ≤ s.smileValue ∧ s.smileValue ≤ 1)
    ∧ (0 ≤ s.browValue ∧ s.browValue ≤ 1)

/-! ## Concrete inputs used by the witnesses -/

/-- A sine stand-in that is constantly zero. -/
def sinZero : ℚ → ℚ := fun _ => 0

/-- A loaded scene: a root with one bone and one mesh carrying mouth, eye and
brow morph targets. -/
def sampleScene : Object3D :=
  .mk 10 "Scene" false false none
    [ .mk 11 "Spine2" true false none [],
      .mk 12 "Head" false true
        (some [("eyeBlinkLeft", 0), ("eyeBlinkRight", 1), ("jawOpen", 2), ("mouthOpen", 3),
          ("browInnerUp", 4)]) [] ]

/-- The scene `sampleScene` with its root at rest. -/
def sampleModel : Model := ⟨sampleScene, ⟨0, 0⟩, 0⟩

/-- The entry of `AVATARS` for the default avatar. -/
def muhammad : Avatar := ⟨"muhammad", "Muhammad", "muhammad.glb", "male"⟩

/-- The state after start-up once the default avatar has loaded. -/
def loadedState : State :=
  loadCompleted (initAvatar (initialState 0 0 0) true) 0 sampleModel

/-- Random draws that are all one half. -/
def rndHalf : Rnd := ⟨1 / 2, 1 / 2, 1 / 2, 1 / 2⟩

/-- Random draws with a blink draw of 0.99. -/
def rndLate : Rnd := ⟨99 / 100, 1 / 2, 1 / 2, 1 / 2⟩

/-- The state `loadedState` after the pointer entered the avatar and moved, at
time 1000, to a position right of and above the container. -/
def pointerState : State :=
  pointerMove (pointerEnter loadedState) 300 (-50) 0 0 100 100 1000

/-- The state `loadedState` after an utterance of 28 characters started at time
2000. -/
def talkingState : State := onstart loadedState 28 2000

/-- The state after one talking frame at time 2050 followed by the end of the
utterance. -/
def talkEndedState : State := onend (animate sinZero talkingState 2050 rndHalf).state

/-- The mesh of `sampleScene`. -/
def sampleHead : Object3D :=
  .mk 12 "Head" false true
    (some [("eyeBlinkLeft", 0), ("eyeBlinkRight", 1), ("jawOpen", 2), ("mouthOpen", 3),
      ("browInnerUp", 4)]) []

/-- The morph target dictionary of `sampleHead`. -/
def sampleDict : List (String × Nat) :=
  [("eyeBlinkLeft", 0), ("eyeBlinkRight", 1), ("jawOpen", 2), ("mouthOpen", 3),
    ("browInnerUp", 4)]

/-- A second loaded scene with the same rig as `sampleScene` and fresh
objects. -/
def sampleScene2 : Object3D :=
  .mk 20 "Scene" false false none
    [ .mk 21 "Spine2" true false none [],
      .mk 22 "Head" false true
        (some [("eyeBlinkLeft", 0), ("eyeBlinkRight", 1), ("jawOpen", 2), ("mouthOpen", 3),
          ("browInnerUp", 4)]) [] ]

/-- The scene `sampleScene2` with its root at rest. -/
def sampleModel2 : Model := ⟨sampleScene2, ⟨0, 0⟩, 0⟩

/-- The state after start-up followed by the selection of "anna" while the
default avatar is still loading: requests for "muhammad" and "anna" are
pending. -/
def switchedState : State := loadAvatar (initAvatar (initialState 0 0 0) true) "anna"

/-- The state after selecting "muhammad" again before any load has completed:
requests for "muhammad", "anna" and "muhammad" are pending. -/
def switchedBackState : State := loadAvatar switchedState "muhammad"

/-- The state after both requests for "muhammad" have completed, the first with
`sampleModel` and the second with `sampleModel2`. -/
def doubleLoadState : State :=
  loadCompleted (loadCompleted switchedBackState 0 sampleModel) 1 sampleModel2

/-! ## Channel discovery as the specification words it -/

/-- Whether `name` is a key of the dictionary `d`. -/
def isKey (d : List (String × Nat)) (name : String) : Bool := (d.lookup name).isSome

/-- Specification of an exclusive role (mouth, smile, brow): one handle, for the
first candidate name that is a key of `d`, and nothing when there is none. -/
def exclusiveHandles (d : List (String × Nat)) (child : Object3D) (names : List String) :
    List Handle :=
  match names.find? (isKey d) with
  | some n =>
    match d.lookup n with
    | some i => [⟨child.id, i⟩]
    | none => []
  | none => []

/-- Specification of the additive role (eye): one handle for every candidate
name that is a key of `d`, in candidate-list order. -/
def additiveHandles (d : List (String × Nat)) (child : Object3D) (names : List String) :
    List Handle :=
  (names.filter (isKey d)).filterMap (fun n => (d.lookup n).map (fun i => ⟨child.id, i⟩))

/-- Specification of what one traversed object contributes to a role: the
handles `role d child` when the object is a mesh with dictionary `d`, nothing
otherwise. -/
def meshHandles (role : List (String × Nat) → Object3D → List Handle) (child : Object3D) :
    List Handle :=
  match child.isMesh, child.morphTargetDictionary with
  | true, some d => role d child
  | _, _ => []

/-- The state after start-up, while the default avatar is loading. -/
def startedState : State := initAvatar (initialState 0 0 0) true

/-! ## Speech events and the event loop -/

/-- The `utterance.onerror` handler of `speakText`. -/
def onerror (s : State) : State := { s with isTalking := false }

/-- The function `speakText(text)` up to the call of `speechSynthesis.speak`:
without `window.speechSynthesis` it clears `isTalking`; otherwise it only
creates the utterance, whose handlers `onstart`, `onend` and `onerror` run
later. -/
def speakText (s : State) (hasSynthesis : Bool) : State :=
  if !hasSynthesis then { s with isTalking := false } else s

/-- The function `stopSpeaking()`. -/
def stopSpeaking (s : State) (hasSynthesis : Bool) : State :=
  if !hasSynthesis then s else { s with isTalking := false }

/-- The callbacks the browser may run, each with the values it reads from its
environment. -/
inductive Event where
  | frame (now : ℚ) (rnd : Rnd)
  | pointerEnter
  | pointerLeave
  | pointerMove (clientX clientY left top width height now : ℚ)
  | loadAvatar (avatarId : String)
  | loadCompleted (i : Nat) (gltf : Model)
  | loadFailed (i : Nat)
  | speakText (hasSynthesis : Bool)
  | utteranceStart (len : ℕ) (now : ℚ)
  | utteranceEnd
  | utteranceError
  | stopSpeaking (hasSynthesis : Bool)

/-- One callback run on the module-level variables. -/
def step (sin : ℚ → ℚ) (s : State) : Event → State
  | .frame now rnd => (animate sin s now rnd).state
  | .pointerEnter => pointerEnter s
  | .pointerLeave => pointerLeave s
  | .pointerMove clientX clientY left top width height now =>
    pointerMove s clientX clientY left top width height now
  | .loadAvatar avatarId => loadAvatar s avatarId
  | .loadCompleted i gltf => loadCompleted s i gltf
  | .loadFailed i => loadFailed s i
  | .speakText hasSynthesis => speakText s hasSynthesis
  | .utteranceStart len now => onstart s len now
  | .utteranceEnd => onend s
  | .utteranceError => onerror s
  | .stopSpeaking hasSynthesis => stopSpeaking s hasSynthesis

/-- The callbacks of a list run one after the other. -/
def run (sin : ℚ → ℚ) (s : State) (events : List Event) : State :=
  events.foldl (step sin) s

/-- The length of the text of the utterance that started last, given the
length `spoken` recorded before the event. -/
def spokenStep (spoken : Option ℕ) : Event → Option ℕ
  | .utteranceStart len _ => some len
  | _ => spoken

/-- The length of the text of the utterance that started last among the
events, if any did. -/
def spokenLength (events : List Event) : Option ℕ :=
  events.foldl spokenStep none

/-- An utterance of 28 characters starting at time 2000, with one frame. -/
def speechEvents : List Event :=
  [Event.speakText true, Event.utteranceStart 28 2000, Event.frame 2050 rndHalf]

/-! ## The talk envelope with the rounding of doubles

The test `progress < 0.07 || progress > 0.97` of `updateFace` compares a
quotient of doubles with two literals, so its outcome at the thresholds depends
on how the quotient is rounded.  In this section every arithmetic result and
every literal that reaches that test is rounded by a function `fl`, as the
arithmetic of doubles rounds to the nearest representable number.  The values
`base` and `targetMouth` stay exact, as everywhere else in this file: rounding
changes them by a few units in the last place only. -/

namespace Rounded

/-- The value `elapsed` of `updateFace`: the subtraction and the division by
1000, each rounded. -/
def elapsed (fl : ℚ → ℚ) (s : State) (now : ℚ) : ℚ :=
  fl (fl (now - s.speakStartTime) / 1000)

/-- The value `progress` of `updateFace`: the rounded quotient of `elapsed` and
`speakDuration`, clamped to [0,1]. -/
def progress (fl : ℚ → ℚ) (s : State) (now : ℚ) : ℚ :=
  clamp (fl (elapsed fl s now / s.speakDuration)) 0 1

/-- The value `base` of `updateFace`; the literals `0.07` and `0.97` of the test
are the doubles `fl 0.07` and `fl 0.97`. -/
def base (fl : ℚ → ℚ) (s : State) (now : ℚ) : ℚ :=
  if progress fl s now < fl 0.07 ∨ progress fl s now > fl 0.97 then 0.1 else 0.4

/-- The value `targetMouth` of `updateFace`. -/
def targetMouth (fl : ℚ → ℚ) (sin : ℚ → ℚ) (s : State) (now t : ℚ) : ℚ :=
  base fl s now + 0.55 * noise sin t

end Rounded

/-- Rounding of a rational to the nearest integer, ties to the even one. -/
def roundEven (r : ℚ) : ℤ :=
  if r - ⌊r⌋ < 1 / 2 then ⌊r⌋
  else if 1 / 2 < r - ⌊r⌋ then ⌊r⌋ + 1
  else if ⌊r⌋ % 2 = 0 then ⌊r⌋ else ⌊r⌋ + 1

/-- The exponent of the binade of a positive number in the binary64 format:
the largest `e` with `2 ^ e ≤ x`, and `-1022` in the subnormal range. -/
def binadeExponent (x : ℚ) : ℤ := max (Int.log 2 x) (-1022)

/-- Rounding of a positive number to the binary64 format: to the nearest
multiple of `2 ^ (e - 52)`, ties to even, for the binade exponent `e`. -/
def binary64Pos (x : ℚ) : ℚ :=
  roundEven (x / 2 ^ (binadeExponent x - 52)) * 2 ^ (binadeExponent x - 52)

/-- Rounding to the nearest binary64 number, ties to even, as the arithmetic of
JavaScript numbers rounds every result.  Results beyond the largest finite
double, which JavaScript turns into an infinity, are outside this model. -/
def binary64 (x : ℚ) : ℚ :=
  if 0 < x then binary64Pos x else if x < 0 then -binary64Pos (-x) else 0


/-- The state `loadedState` after an utterance of 14 characters started at time
2000: speakDuration is 1.5. -/
def shortTalkState : State := onstart loadedState 14 2000

/-! ## HTML escaping -/

/-- The double quote character. -/
def dquote : Char := Char.ofNat 34

/-- The apostrophe character. -/
def squote : Char := Char.ofNat 39

/-- Whether the regex class `[&<>"']` matches the character. -/
def matchesClass (ch : Char) : Bool :=
  ch == '&' || ch == '<' || ch == '>' || ch == dquote || ch == squote

/-- The replacer callback of `escapeHtml`, a `switch` on the matched
character. -/
def replacer (ch : Char) : List Char :=
  if ch = '&' then "&amp;".toList
  else if ch = '<' then "&lt;".toList
  else if ch = '>' then "&gt;".toList
  else if ch = dquote then "&quot;".toList
  else if ch = squote then "&#39;".toList
  else [ch]

/-- The call `.replace(/[&<>"']/g, replacer)` on the characters of a string:
every matching character is replaced by what the callback returns. -/
def replaceAll (cs : List Char) : List Char :=
  cs.flatMap (fun ch => if matchesClass ch then replacer ch else [ch])

/-- The function `escapeHtml(str)`; `none` stands for `null` and `undefined`,
which like the empty string make `str || ""` the empty string.  The five
characters are ASCII, so replacing by character equals replacing by UTF-16
code unit. -/
def escapeHtml (str : Option String) : String :=
  String.mk (replaceAll (str.getD "").toList)

/-- While talking, `speakDuration` is the value computed from the length of the
text of the utterance that started last. -/
def DurationFromLength (s : State) (spoken : Option ℕ) : Prop :=
  s.isTalking = true →
    ∃ len : ℕ, spoken = some len ∧ s.speakDuration = max 1.5 ((len : ℚ) / 14)

/-- One of the five entities starts at position `i` of `out`. -/
def EntityAt (out : List Char) (i : ℕ) : Prop :=
  (out.drop i).take 5 = "&amp;".toList ∨ (out.drop i).take 4 = "&lt;".toList
    ∨ (out.drop i).take 4 = "&gt;".toList ∨ (out.drop i).take 6 = "&quot;".toList
    ∨ (out.drop i).take 5 = "&#39;".toList

/-- What `replaceAll` puts in the place of one character. -/
def piece (ch : Char) : List Char := if matchesClass ch then replacer ch else [ch]

/-! ## Lemmas on the helpers -/

theorem lerp_eq (x y t : ℚ) : lerp x y t = x + t * (y - x) := by
  unfold lerp; ring

theorem lerp_mem_Icc {x y t a b : ℚ} (hx : a ≤ x ∧ x ≤ b) (hy : a ≤ y ∧ y ≤ b)
    (ht : 0 ≤ t ∧ t ≤ 1) : a ≤ lerp x y t ∧ lerp x y t ≤ b := by
  unfold lerp
  have h1 : 0 ≤ 1 - t := by linarith [ht.2]
  constructor
  · nlinarith [mul_nonneg h1 (sub_nonneg.2 hx.1), mul_nonneg ht.1 (sub_nonneg.2 hy.1)]
  · nlinarith [mul_nonneg h1 (sub_nonneg.2 hx.2), mul_nonneg ht.1 (sub_nonneg.2 hy.2)]

theorem clamp_mem_Icc {v lo hi : ℚ} (h : lo ≤ hi) : lo ≤ clamp v lo hi ∧ clamp v lo hi ≤ hi := by
  unfold clamp
  exact ⟨le_max_left _ _, max_le h (min_le_left _ _)⟩

theorem noise_mem_Icc (sin : ℚ → ℚ) (hsin : ∀ x, -1 ≤ sin x ∧ sin x ≤ 1) (t : ℚ) :
    0 ≤ noise sin t ∧ noise sin t ≤ 1 := by
  unfold noise
  have h1 := hsin (t * 8.2)
  have h2 := hsin (t * 11.7 + 1.5)
  constructor <;> norm_num <;> linarith [h1.1, h1.2, h2.1, h2.2]

theorem targetMouth_mem_Icc (sin : ℚ → ℚ) (hsin : ∀ x, -1 ≤ sin x ∧ sin x ≤ 1) (s : State)
    (now t : ℚ) : 0.1 ≤ targetMouth sin s now t ∧ targetMouth sin s now t ≤ 0.95 := by
  have hn := noise_mem_Icc sin hsin t
  unfold targetMouth
  simp only
  split_ifs <;> constructor <;> norm_num <;> linarith [hn.1, hn.2]

theorem updateFace_inRange (sin : ℚ → ℚ) (hsin : ∀ x, -1 ≤ sin x ∧ sin x ≤ 1) (s : State)
    (now t : ℚ) (h : FaceInRange s) : FaceInRange (updateFace sin s now t).1 := by
  obtain ⟨hm, hs, hb⟩ := h
  have htm := targetMouth_mem_Icc sin hsin s now t
  have htm1 : 0 ≤ targetMouth sin s now t ∧ targetMouth sin s now t ≤ 1 :=
    ⟨by linarith [htm.1, show (0 : ℚ) ≤ 0.1 by norm_num],
      by linarith [htm.2, show (0.95 : ℚ) ≤ 1 by norm_num]⟩
  unfold updateFace FaceInRange
  by_cases ht : s.isTalking = true
  · simp only [ht, if_true]
    exact ⟨lerp_mem_Icc hm htm1 (by norm_num), lerp_mem_Icc hs (by norm_num) (by norm_num),
      lerp_mem_Icc hb (by norm_num) (by norm_num)⟩
  · simp only [ht]
    exact ⟨lerp_mem_Icc hm (by norm_num) (by norm_num),
      lerp_mem_Icc hs (by norm_num) (by norm_num), lerp_mem_Icc hb (by norm_num) (by norm_num)⟩

theorem updateFace_writes (sin : ℚ → ℚ) (s : State) (now t : ℚ) (w : MorphWrite)
    (hw : w ∈ (updateFace sin s now t).2) :
    w.value = (updateFace sin s now t).1.mouthValue
      ∨ w.value = (updateFace sin s now t).1.smileValue
      ∨ w.value = (updateFace sin s now t).1.browValue := by
  unfold updateFace at hw ⊢
  simp only [List.mem_append, List.mem_map] at hw
  rcases hw with (⟨p, -, rfl⟩ | ⟨p, -, rfl⟩) | ⟨p, -, rfl⟩
  · exact Or.inl rfl
  · exact Or.inr (Or.inl rfl)
  · exact Or.inr (Or.inr rfl)

theorem blinkStep_binary (now nbt r : ℚ) :
    (blinkStep now nbt r).1 = 0 ∨ (blinkStep now nbt r).1 = 1 := by
  unfold blinkStep
  split_ifs <;> simp

theorem animate_inRange (sin : ℚ → ℚ) (hsin : ∀ x, -1 ≤ sin x ∧ sin x ≤ 1) (s : State)
    (now : ℚ) (rnd : Rnd) (h : FaceInRange s) : FaceInRange (animate sin s now rnd).state := by
  unfold animate
  cases hm : s.model with
  | none => simpa using h
  | some m =>
    simp only
    apply updateFace_inRange sin hsin
    exact h

theorem faceReachable_inRange (sin : ℚ → ℚ) (hsin : ∀ x, -1 ≤ sin x ∧ sin x ≤ 1) (s : State)
    (h : FaceReachable sin s) : FaceInRange s := by
  induction h with
  | start s hm hs hb =>
    unfold FaceInRange
    rw [hm, hs, hb]
    norm_num
  | outside s s' _ hm hs hb ih =>
    unfold FaceInRange at ih ⊢
    rw [hm, hs, hb]
    exact ih
  | frame s now rnd _ _ ih => exact animate_inRange sin hsin s now rnd ih

theorem animate_nextBlinkTime (sin : ℚ → ℚ) (s : State) (m : Model) (now : ℚ) (rnd : Rnd)
    (hm : s.model = some m) :
    (animate sin s now rnd).state.nextBlinkTime
      = (blinkStep now s.nextBlinkTime rnd.blink).2 := by
  unfold animate
  rw [hm]
  by_cases ht : s.isTalking = true <;> simp [updateFace, updateHeadAndBody, ht]

theorem animate_eyeWrites (sin : ℚ → ℚ) (s : State) (m : Model) (now : ℚ) (rnd : Rnd)
    (hm : s.model = some m) :
    (animate sin s now rnd).eyeWrites
      = s.eyeParts.map (fun p => ⟨p, (blinkStep now s.nextBlinkTime rnd.blink).1⟩) := by
  unfold animate
  rw [hm]

theorem animate_model_isSome (sin : ℚ → ℚ) (s : State) (m : Model) (now : ℚ) (rnd : Rnd)
    (hm : s.model = some m) : ∃ m', (animate sin s now rnd).state.model = some m' := by
  unfold animate
  rw [hm]
  by_cases ht : s.isTalking = true <;> simp [updateFace, updateHeadAndBody, ht]

theorem loadedState_eyeParts : loadedState.eyeParts = [⟨12, 0⟩, ⟨12, 1⟩] := rfl

theorem loadedState_faceReachable : FaceReachable sinZero loadedState :=
  FaceReachable.outside (initialState 0 0 0) loadedState
    (FaceReachable.start _ rfl (by norm_num [initialState]) (by norm_num [initialState]))
    rfl rfl rfl

/-! ## C1: weight range invariant -/

/-- C1. In every state reached from the initial face values (mouthValue 0,
smileValue 0.3, browValue 0) by frames and by arbitrary changes of the other
variables, with the sine terms bounded by 1 in absolute value and a positive
speakDuration, the next frame writes only values in [0,1] to the eye channels
and to the mouth, smile and brow channels, and mouthValue, smileValue and
browValue lie in [0,1] before and after it. -/
theorem weights_in_unit_interval (sin : ℚ → ℚ) (hsin : ∀ x, -1 ≤ sin x ∧ sin x ≤ 1)
    (s : State) (hr : FaceReachable sin s) (hd : 0 < s.speakDuration) (now : ℚ) (rnd : Rnd) :
    (∀ w ∈ (animate sin s now rnd).eyeWrites, 0 ≤ w.value ∧ w.value ≤ 1)
      ∧ (∀ w ∈ (animate sin s now rnd).faceWrites, 0 ≤ w.value ∧ w.value ≤ 1)
      ∧ FaceInRange s ∧ FaceInRange (animate sin s now rnd).state := by
  have hs : FaceInRange s := faceReachable_inRange sin hsin s hr
  have hs' : FaceInRange (animate sin s now rnd).state :=
    faceReachable_inRange sin hsin _ (FaceReachable.frame s now rnd hr hd)
  refine ⟨?_, ?_, hs, hs'⟩
  · intro w hw
    cases hm : s.model with
    | none =>
      simp [animate, hm] at hw
    | some m =>
      rw [animate_eyeWrites sin s m now rnd hm, List.mem_map] at hw
      obtain ⟨p, -, rfl⟩ := hw
      rcases blinkStep_binary now s.nextBlinkTime rnd.blink with h | h <;> simp [h]
  · intro w hw
    cases hm : s.model with
    | none =>
      simp [animate, hm] at hw
    | some m =>
      have hface : FaceInRange (updateFace sin
          (updateHeadAndBody sin { s with nextBlinkTime :=
            (blinkStep now s.nextBlinkTime rnd.blink).2 } m now (now * 0.001) rnd).1
          now (now * 0.001)).1 := by
        apply updateFace_inRange sin hsin
        exact hs
      have hw' : w ∈ (updateFace sin
          (updateHeadAndBody sin { s with nextBlinkTime :=
            (blinkStep now s.nextBlinkTime rnd.blink).2 } m now (now * 0.001) rnd).1
          now (now * 0.001)).2 := by
        simpa [animate, hm] using hw
      obtain ⟨h1, h2, h3⟩ := hface
      rcases updateFace_writes sin _ now _ w hw' with h | h | h <;> rw [h] <;> assumption

/-- Witness for C1: the frame at time 2050 after the default avatar has loaded,
reached through one earlier frame. -/
theorem weights_in_unit_interval_witness :
    (∀ w ∈ (animate sinZero (animate sinZero loadedState 2000 rndHalf).state 2050
        rndHalf).eyeWrites, 0 ≤ w.value ∧ w.value ≤ 1)
      ∧ (∀ w ∈ (animate sinZero (animate sinZero loadedState 2000 rndHalf).state 2050
        rndHalf).faceWrites, 0 ≤ w.value ∧ w.value ≤ 1)
      ∧ FaceInRange (animate sinZero loadedState 2000 rndHalf).state
      ∧ FaceInRange (animate sinZero (animate sinZero loadedState 2000 rndHalf).state 2050
        rndHalf).state :=
  weights_in_unit_interval sinZero (fun _ => by norm_num [sinZero])
    (animate sinZero loadedState 2000 rndHalf).state
    (FaceReachable.frame loadedState 2000 rndHalf loadedState_faceReachable
      (by norm_num [show loadedState.speakDuration = 1 from rfl]))
    (by norm_num [show (animate sinZero loadedState 2000 rndHalf).state.speakDuration = 1
      from rfl])
    2050 rndHalf

/-! ## C2: blink weight -/

/-- C2. In a frame with a model loaded, every eye channel is written the blink
value, which is 0 or 1, is 1 exactly when nextBlinkTime < now < nextBlinkTime
+ 130, and is 0 whenever now ≤ nextBlinkTime. -/
theorem blink_weight_binary (sin : ℚ → ℚ) (s : State) (m : Model) (now : ℚ) (rnd : Rnd)
    (hm : s.model = some m) :
    (animate sin s now rnd).eyeWrites
        = s.eyeParts.map (fun p => ⟨p, (blinkStep now s.nextBlinkTime rnd.blink).1⟩)
      ∧ ((blinkStep now s.nextBlinkTime rnd.blink).1 = 0
        ∨ (blinkStep now s.nextBlinkTime rnd.blink).1 = 1)
      ∧ ((blinkStep now s.nextBlinkTime rnd.blink).1 = 1
        ↔ s.nextBlinkTime < now ∧ now < s.nextBlinkTime + 130)
      ∧ (now ≤ s.nextBlinkTime → (blinkStep now s.nextBlinkTime rnd.blink).1 = 0) := by
  refine ⟨animate_eyeWrites sin s m now rnd hm, blinkStep_binary _ _ _, ?_, ?_⟩
  · unfold blinkStep
    split_ifs with h1 h2
    · exact ⟨fun _ => ⟨h1, h2⟩, fun _ => rfl⟩
    · exact ⟨fun h => absurd h (by norm_num), fun h => absurd h.2 h2⟩
    · exact ⟨fun h => absurd h (by norm_num), fun h => absurd h.1 h1⟩
  · intro h
    unfold blinkStep
    rw [if_neg (not_lt.2 h)]

/-- Witness for C2: the frame at time 2050 with nextBlinkTime 2000. -/
theorem blink_weight_binary_witness :
    loadedState.model = some sampleModel
      ∧ (animate sinZero loadedState 2050 rndHalf).eyeWrites
        = loadedState.eyeParts.map
          (fun p => ⟨p, (blinkStep 2050 loadedState.nextBlinkTime rndHalf.blink).1⟩)
      ∧ ((blinkStep 2050 loadedState.nextBlinkTime rndHalf.blink).1 = 0
        ∨ (blinkStep 2050 loadedState.nextBlinkTime rndHalf.blink).1 = 1)
      ∧ ((blinkStep 2050 loadedState.nextBlinkTime rndHalf.blink).1 = 1
        ↔ loadedState.nextBlinkTime < 2050 ∧ 2050 < loadedState.nextBlinkTime + 130)
      ∧ (2050 ≤ loadedState.nextBlinkTime
        → (blinkStep 2050 loadedState.nextBlinkTime rndHalf.blink).1 = 0) :=
  ⟨rfl, blink_weight_binary sinZero loadedState sampleModel 2050 rndHalf rfl⟩

/-! ## C3: blink cadence -/

theorem blinkStep_reschedule (now nbt r : ℚ)
    (hch : (blinkStep now nbt r).2 ≠ nbt) :
    nbt + 130 ≤ now ∧ (blinkStep now nbt r).2 = now + 2000 + r * 2000 := by
  unfold blinkStep at hch ⊢
  split_ifs at hch ⊢ with h1 h2
  · exact absurd rfl hch
  · exact ⟨not_lt.1 h2, rfl⟩
  · exact absurd rfl hch

/-- C3, counterexample. With nextBlinkTime = 2000, the frame at 2050 writes the
closed-eye value 1 and the frame at 2130 (increasing timestamps, random draw
0.99 in [0,1)) reschedules nextBlinkTime to 6110: the two consecutive values of
nextBlinkTime are 4110 ms apart, not less than 4000 ms. -/
theorem blink_cadence_counterexample :
    loadedState.nextBlinkTime = 2000
      ∧ (animate sinZero loadedState 2050 rndLate).eyeWrites = [⟨⟨12, 0⟩, 1⟩, ⟨⟨12, 1⟩, 1⟩]
      ∧ (animate sinZero loadedState 2050 rndLate).state.nextBlinkTime = 2000
      ∧ (animate sinZero (animate sinZero loadedState 2050 rndLate).state 2130
          rndLate).state.nextBlinkTime = 6110
      ∧ ¬ ((animate sinZero (animate sinZero loadedState 2050 rndLate).state 2130
          rndLate).state.nextBlinkTime - loadedState.nextBlinkTime < 4000) := by
  have h0 : loadedState.nextBlinkTime = 2000 := by
    show (0 : ℚ) + 2000 + 0 * 1200 = 2000
    norm_num
  have h1 : (animate sinZero loadedState 2050 rndLate).state.nextBlinkTime = 2000 := by
    rw [animate_nextBlinkTime sinZero loadedState sampleModel 2050 rndLate rfl, h0]
    norm_num [blinkStep]
  obtain ⟨m', hm'⟩ := animate_model_isSome sinZero loadedState sampleModel 2050 rndLate rfl
  have h2 : (animate sinZero (animate sinZero loadedState 2050 rndLate).state 2130
      rndLate).state.nextBlinkTime = 6110 := by
    rw [animate_nextBlinkTime sinZero _ m' 2130 rndLate hm', h1]
    norm_num [blinkStep, rndLate]
  refine ⟨h0, ?_, h1, h2, ?_⟩
  · rw [animate_eyeWrites sinZero loadedState sampleModel 2050 rndLate rfl, h0,
      loadedState_eyeParts]
    norm_num [blinkStep]
  · rw [h2, h0]
    norm_num

/-- C3, amended. With a model loaded and a random draw in [0,1), a frame that
changes nextBlinkTime has a timestamp now ≥ old nextBlinkTime + 130 and sets the
new nextBlinkTime at least 2000 ms and strictly less than 4000 ms after now;
so two consecutive values of nextBlinkTime are at least 2130 ms apart. -/
theorem blink_cadence_amended (sin : ℚ → ℚ) (s : State) (m : Model) (now : ℚ) (rnd : Rnd)
    (hm : s.model = some m) (hr : 0 ≤ rnd.blink ∧ rnd.blink < 1)
    (hch : (animate sin s now rnd).state.nextBlinkTime ≠ s.nextBlinkTime) :
    s.nextBlinkTime + 130 ≤ now
      ∧ 2000 ≤ (animate sin s now rnd).state.nextBlinkTime - now
      ∧ (animate sin s now rnd).state.nextBlinkTime - now < 4000
      ∧ 2130 ≤ (animate sin s now rnd).state.nextBlinkTime - s.nextBlinkTime := by
  rw [animate_nextBlinkTime sin s m now rnd hm] at hch ⊢
  obtain ⟨h1, h2⟩ := blinkStep_reschedule now s.nextBlinkTime rnd.blink hch
  rw [h2]
  refine ⟨h1, ?_, ?_, ?_⟩ <;> linarith [hr.1, hr.2]

/-- Witness for the amended C3: the rescheduling frame at time 2130 with
nextBlinkTime 2000 and random draw 0.99. -/
theorem blink_cadence_amended_witness :
    loadedState.nextBlinkTime + 130 ≤ 2130
      ∧ 2000 ≤ (animate sinZero loadedState 2130 rndLate).state.nextBlinkTime - 2130
      ∧ (animate sinZero loadedState 2130 rndLate).state.nextBlinkTime - 2130 < 4000
      ∧ 2130 ≤ (animate sinZero loadedState 2130 rndLate).state.nextBlinkTime
          - loadedState.nextBlinkTime :=
  blink_cadence_amended sinZero loadedState sampleModel 2130 rndLate rfl
    (by norm_num [rndLate])
    (by
      rw [animate_nextBlinkTime sinZero loadedState sampleModel 2130 rndLate rfl,
        show loadedState.nextBlinkTime = (0 : ℚ) + 2000 + 0 * 1200 from rfl]
      norm_num [blinkStep, rndLate])

/-! ## C4: head-target clamp under pointer tracking -/

/-- C4. When isTalking is false, the pointer is inside the avatar and moved less
than 2500 ms ago, updateHeadAndBody sets headTarget.y to
clamp(0.35 * pointerNorm.x, -0.35, 0.35), which lies in [-0.35, 0.35], and
headTarget.x to clamp(-0.2 * pointerNorm.y, -0.2, 0.2), which lies in
[-0.2, 0.2], for every pointer position. -/
theorem head_target_clamped (sin : ℚ → ℚ) (s : State) (m : Model) (now t : ℚ) (rnd : Rnd)
    (ht : s.isTalking = false) (hp : s.pointerInAvatar = true)
    (hl : now - s.lastPointerLookTime < 2500) :
    (updateHeadAndBody sin s m now t rnd).1.headTarget.y
        = clamp (0.35 * s.pointerNorm.x) (-0.35) 0.35
      ∧ (-0.35 ≤ (updateHeadAndBody sin s m now t rnd).1.headTarget.y
        ∧ (updateHeadAndBody sin s m now t rnd).1.headTarget.y ≤ 0.35)
      ∧ (updateHeadAndBody sin s m now t rnd).1.headTarget.x
        = clamp (-0.2 * s.pointerNorm.y) (-0.2) 0.2
      ∧ (-0.2 ≤ (updateHeadAndBody sin s m now t rnd).1.headTarget.x
        ∧ (updateHeadAndBody sin s m now t rnd).1.headTarget.x ≤ 0.2) := by
  have hy : (updateHeadAndBody sin s m now t rnd).1.headTarget.y
      = clamp (0.35 * s.pointerNorm.x) (-0.35) 0.35 := by
    simp only [updateHeadAndBody, headTargetStep, ht, hp, hl, Bool.not_false, if_true,
      decide_True, Bool.and_self]
    rw [mul_comm]
  have hx : (updateHeadAndBody sin s m now t rnd).1.headTarget.x
      = clamp (-0.2 * s.pointerNorm.y) (-0.2) 0.2 := by
    simp only [updateHeadAndBody, headTargetStep, ht, hp, hl, Bool.not_false, if_true,
      decide_True, Bool.and_self]
    congr 1
    ring
  rw [hy, hx]
  exact ⟨rfl, clamp_mem_Icc (by norm_num), rfl, clamp_mem_Icc (by norm_num)⟩

/-- Witness for C4: the pointer at normalized position (5, -2), outside
[-1,1], moved at time 1000; frame at time 2050. -/
theorem head_target_clamped_witness :
    pointerState.isTalking = false ∧ pointerState.pointerInAvatar = true
      ∧ (2050 : ℚ) - pointerState.lastPointerLookTime < 2500
      ∧ (updateHeadAndBody sinZero pointerState sampleModel 2050 (2050 * 0.001)
          rndHalf).1.headTarget.y = clamp (0.35 * pointerState.pointerNorm.x) (-0.35) 0.35
      ∧ (-0.35 ≤ (updateHeadAndBody sinZero pointerState sampleModel 2050 (2050 * 0.001)
          rndHalf).1.headTarget.y
        ∧ (updateHeadAndBody sinZero pointerState sampleModel 2050 (2050 * 0.001)
          rndHalf).1.headTarget.y ≤ 0.35)
      ∧ (updateHeadAndBody sinZero pointerState sampleModel 2050 (2050 * 0.001)
          rndHalf).1.headTarget.x = clamp (-0.2 * pointerState.pointerNorm.y) (-0.2) 0.2
      ∧ (-0.2 ≤ (updateHeadAndBody sinZero pointerState sampleModel 2050 (2050 * 0.001)
          rndHalf).1.headTarget.x
        ∧ (updateHeadAndBody sinZero pointerState sampleModel 2050 (2050 * 0.001)
          rndHalf).1.headTarget.x ≤ 0.2) :=
  ⟨rfl, rfl, by norm_num [show pointerState.lastPointerLookTime = 1000 from rfl],
    head_target_clamped sinZero pointerState sampleModel 2050 (2050 * 0.001) rndHalf rfl rfl
      (by norm_num [show pointerState.lastPointerLookTime = 1000 from rfl])⟩


theorem headTargetStep_congr (sin : ℚ → ℚ) (s1 s2 : State) (now t : ℚ) (rnd : Rnd)
    (h1 : s2.isTalking = s1.isTalking) (h2 : s2.lastPointerLookTime = s1.lastPointerLookTime)
    (h3 : s2.pointerInAvatar = s1.pointerInAvatar) (h4 : s2.pointerNorm = s1.pointerNorm)
    (h5 : s2.nextIdleHeadTurn = s1.nextIdleHeadTurn) (h6 : s2.headTarget = s1.headTarget) :
    headTargetStep sin s2 now t rnd = headTargetStep sin s1 now t rnd := by
  unfold headTargetStep
  rw [h1, h2, h3, h4, h5, h6]

theorem animate_state (sin : ℚ → ℚ) (s : State) (m : Model) (now : ℚ) (rnd : Rnd)
    (hm : s.model = some m) :
    (animate sin s now rnd).state
      = (updateFace sin (updateHeadAndBody sin
          { s with nextBlinkTime := (blinkStep now s.nextBlinkTime rnd.blink).2 }
          m now (now * 0.001) rnd).1 now (now * 0.001)).1 := by
  unfold animate
  rw [hm]

theorem updateFace_values (sin : ℚ → ℚ) (s : State) (now t : ℚ) :
    (updateFace sin s now t).1.mouthValue
        = lerp s.mouthValue (if s.isTalking then targetMouth sin s now t else 0)
          (if s.isTalking then 0.35 else 0.18)
      ∧ (updateFace sin s now t).1.smileValue
        = lerp s.smileValue (if s.isTalking then 0.5 else 0.25)
          (if s.isTalking then 0.15 else 0.05)
      ∧ (updateFace sin s now t).1.browValue
        = lerp s.browValue (if s.isTalking then 0.25 else 0.02)
          (if s.isTalking then 0.18 else 0.05) := by
  unfold updateFace
  cases s.isTalking <;> simp

theorem updateFace_other (sin : ℚ → ℚ) (s : State) (now t : ℚ) :
    (updateFace sin s now t).1.isTalking = s.isTalking
      ∧ (updateFace sin s now t).1.model = s.model
      ∧ (updateFace sin s now t).1.speakStartTime = s.speakStartTime
      ∧ (updateFace sin s now t).1.speakDuration = s.speakDuration
      ∧ (updateFace sin s now t).1.headTarget = s.headTarget
      ∧ (updateFace sin s now t).1.nextIdleHeadTurn = s.nextIdleHeadTurn
      ∧ (updateFace sin s now t).1.lastPointerLookTime = s.lastPointerLookTime
      ∧ (updateFace sin s now t).1.pointerInAvatar = s.pointerInAvatar
      ∧ (updateFace sin s now t).1.pointerNorm = s.pointerNorm := by
  unfold updateFace
  cases s.isTalking <;> simp

theorem targetMouth_congr (sin : ℚ → ℚ) (s1 s2 : State) (now t : ℚ)
    (h1 : s2.speakStartTime = s1.speakStartTime) (h2 : s2.speakDuration = s1.speakDuration) :
    targetMouth sin s2 now t = targetMouth sin s1 now t := by
  unfold targetMouth progress
  rw [h1, h2]

theorem animate_face_values (sin : ℚ → ℚ) (s : State) (m : Model) (now : ℚ) (rnd : Rnd)
    (hm : s.model = some m) :
    (animate sin s now rnd).state.mouthValue
        = lerp s.mouthValue (if s.isTalking then targetMouth sin s now (now * 0.001) else 0)
          (if s.isTalking then 0.35 else 0.18)
      ∧ (animate sin s now rnd).state.smileValue
        = lerp s.smileValue (if s.isTalking then 0.5 else 0.25)
          (if s.isTalking then 0.15 else 0.05)
      ∧ (animate sin s now rnd).state.browValue
        = lerp s.browValue (if s.isTalking then 0.25 else 0.02)
          (if s.isTalking then 0.18 else 0.05) := by
  rw [animate_state sin s m now rnd hm]
  obtain ⟨h1, h2, h3⟩ := updateFace_values sin (updateHeadAndBody sin
          { s with nextBlinkTime := (blinkStep now s.nextBlinkTime rnd.blink).2 }
          m now (now * 0.001) rnd).1 now (now * 0.001)
  rw [h1, h2, h3]
  refine ⟨?_, rfl, rfl⟩
  rw [targetMouth_congr sin s _ now (now * 0.001) rfl rfl]
  rfl

theorem animate_other (sin : ℚ → ℚ) (s : State) (m : Model) (now : ℚ) (rnd : Rnd)
    (hm : s.model = some m) :
    (animate sin s now rnd).state.isTalking = s.isTalking
      ∧ (animate sin s now rnd).state.speakStartTime = s.speakStartTime
      ∧ (animate sin s now rnd).state.speakDuration = s.speakDuration
      ∧ (animate sin s now rnd).state.lastPointerLookTime = s.lastPointerLookTime
      ∧ (animate sin s now rnd).state.pointerInAvatar = s.pointerInAvatar
      ∧ (animate sin s now rnd).state.pointerNorm = s.pointerNorm := by
  rw [animate_state sin s m now rnd hm]
  obtain ⟨h1, -, h3, h4, -, -, h7, h8, h9⟩ := updateFace_other sin (updateHeadAndBody sin
          { s with nextBlinkTime := (blinkStep now s.nextBlinkTime rnd.blink).2 }
          m now (now * 0.001) rnd).1 now (now * 0.001)
  rw [h1, h3, h4, h7, h8, h9]
  exact ⟨rfl, rfl, rfl, rfl, rfl, rfl⟩

theorem animate_head (sin : ℚ → ℚ) (s : State) (m : Model) (now : ℚ) (rnd : Rnd)
    (hm : s.model = some m) :
    (animate sin s now rnd).state.headTarget = (headTargetStep sin s now (now * 0.001) rnd).1
      ∧ (animate sin s now rnd).state.nextIdleHeadTurn
        = (headTargetStep sin s now (now * 0.001) rnd).2
      ∧ (animate sin s now rnd).state.model
        = some { m with
            positionY := sin (now * 0.001 * 1.4) * 0.015
            rotation :=
              ⟨lerp m.rotation.x (headTargetStep sin s now (now * 0.001) rnd).1.x 0.08,
                lerp m.rotation.y (headTargetStep sin s now (now * 0.001) rnd).1.y 0.08⟩ } := by
  rw [animate_state sin s m now rnd hm]
  obtain ⟨-, h2, -, -, h5, h6, -, -, -⟩ := updateFace_other sin (updateHeadAndBody sin
          { s with nextBlinkTime := (blinkStep now s.nextBlinkTime rnd.blink).2 }
          m now (now * 0.001) rnd).1 now (now * 0.001)
  rw [h2, h5, h6]
  have hc : headTargetStep sin
      { s with nextBlinkTime := (blinkStep now s.nextBlinkTime rnd.blink).2 } now
        (now * 0.001) rnd = headTargetStep sin s now (now * 0.001) rnd :=
    headTargetStep_congr sin s _ now (now * 0.001) rnd rfl rfl rfl rfl rfl rfl
  unfold updateHeadAndBody
  simp only [hc, and_self]
theorem headTargetStep_again (sin : ℚ → ℚ) (s s' : State) (now t : ℚ) (rnd : Rnd)
    (hi : 0 ≤ rnd.idle)
    (h1 : s'.isTalking = s.isTalking) (h2 : s'.lastPointerLookTime = s.lastPointerLookTime)
    (h3 : s'.pointerInAvatar = s.pointerInAvatar) (h4 : s'.pointerNorm = s.pointerNorm)
    (h5 : s'.nextIdleHeadTurn = (headTargetStep sin s now t rnd).2)
    (h6 : s'.headTarget = (headTargetStep sin s now t rnd).1) :
    headTargetStep sin s' now t rnd = headTargetStep sin s now t rnd := by
  unfold headTargetStep at h5 h6 ⊢
  rw [h1, h2, h3, h4]
  cases ht : s.isTalking
  · cases hp : (s.pointerInAvatar && decide (now - s.lastPointerLookTime < 2500))
    · by_cases hn : now > s.nextIdleHeadTurn
      · simp only [ht, hp, hn, Bool.not_false, if_true, Bool.false_eq_true, if_false] at h5 h6 ⊢
        have hnot : ¬ (now > s'.nextIdleHeadTurn) := by
          rw [h5]; linarith
        rw [if_neg hnot, h5, h6]
      · simp only [ht, hp, hn, Bool.not_false, if_true, Bool.false_eq_true, if_false] at h5 h6 ⊢
        rw [h5, h6, if_neg hn]
    · simp only [ht, hp, Bool.not_false, if_true] at h5 h6 ⊢
      rw [h5]
  · simp only [ht, Bool.not_true, Bool.false_eq_true, if_false] at h5 h6 ⊢
    rw [h5]

theorem lerp_step (x y t : ℚ) : lerp (lerp x y t) y t - lerp x y t = (1 - t) * (lerp x y t - x) := by
  unfold lerp; ring

theorem scaled_step_iff {a b c k : ℚ} (hk : k ≠ 0) (h : a - b = k * (b - c)) :
    a = b ↔ b = c := by
  constructor
  · intro h1
    rw [h1, sub_self] at h
    have := (mul_eq_zero.1 h.symm).resolve_left hk
    linarith
  · intro h1
    rw [h1, sub_self, mul_zero] at h
    linarith

/-! ## C5: repeating a frame at the same timestamp -/

/-- C5, counterexample. Running the frame update twice at time 2050 from the
loaded idle state, with identical inputs, gives smileValue 0.295125, while
running it once gives 0.2975. -/
theorem frame_idempotence_counterexample :
    (animate sinZero loadedState 2050 rndHalf).state.smileValue = 0.2975
      ∧ (animate sinZero (animate sinZero loadedState 2050 rndHalf).state 2050
          rndHalf).state.smileValue = 0.295125
      ∧ (animate sinZero (animate sinZero loadedState 2050 rndHalf).state 2050
          rndHalf).state.smileValue
        ≠ (animate sinZero loadedState 2050 rndHalf).state.smileValue := by
  obtain ⟨a1, -⟩ := animate_other sinZero loadedState sampleModel 2050 rndHalf rfl
  obtain ⟨-, -, b3⟩ := animate_head sinZero loadedState sampleModel 2050 rndHalf rfl
  obtain ⟨-, c2, -⟩ := animate_face_values sinZero loadedState sampleModel 2050 rndHalf rfl
  obtain ⟨-, d2, -⟩ := animate_face_values sinZero _ _ 2050 rndHalf b3
  have h0 : loadedState.smileValue = 0.3 := rfl
  have ht : loadedState.isTalking = false := rfl
  have h1 : (animate sinZero loadedState 2050 rndHalf).state.smileValue = 0.2975 := by
    rw [c2, h0, ht]
    norm_num [lerp]
  have h2 : (animate sinZero (animate sinZero loadedState 2050 rndHalf).state 2050
      rndHalf).state.smileValue = 0.295125 := by
    rw [d2, a1, h1, ht]
    norm_num [lerp]
  refine ⟨h1, h2, ?_⟩
  rw [h2, h1]
  norm_num

/-- C5, amended. With a model loaded, running the frame update a second time with
identical inputs and the same timestamp repeats a scaled-down step: the change
of mouthValue, smileValue, browValue and of the model rotation made by the
second run is (1 - f) times the change made by the first run, f being the
interpolation factor (mouth 0.35 talking or 0.18 idle, smile 0.15 or 0.05, brow
0.18 or 0.05, rotation 0.08).  So the second run reproduces a value of the
first run exactly when the first run left that value unchanged. -/
theorem frame_twice_scaled_step (sin : ℚ → ℚ) (s : State) (m : Model) (now : ℚ) (rnd : Rnd)
    (hm : s.model = some m) (hi : 0 ≤ rnd.idle) :
    ∃ m1 m2, (animate sin s now rnd).state.model = some m1
      ∧ (animate sin (animate sin s now rnd).state now rnd).state.model = some m2
      ∧ (animate sin (animate sin s now rnd).state now rnd).state.mouthValue
          - (animate sin s now rnd).state.mouthValue
        = (1 - (if s.isTalking then 0.35 else 0.18))
          * ((animate sin s now rnd).state.mouthValue - s.mouthValue)
      ∧ (animate sin (animate sin s now rnd).state now rnd).state.smileValue
          - (animate sin s now rnd).state.smileValue
        = (1 - (if s.isTalking then 0.15 else 0.05))
          * ((animate sin s now rnd).state.smileValue - s.smileValue)
      ∧ (animate sin (animate sin s now rnd).state now rnd).state.browValue
          - (animate sin s now rnd).state.browValue
        = (1 - (if s.isTalking then 0.18 else 0.05))
          * ((animate sin s now rnd).state.browValue - s.browValue)
      ∧ m2.rotation.x - m1.rotation.x = (1 - 0.08) * (m1.rotation.x - m.rotation.x)
      ∧ m2.rotation.y - m1.rotation.y = (1 - 0.08) * (m1.rotation.y - m.rotation.y)
      ∧ ((animate sin (animate sin s now rnd).state now rnd).state.mouthValue
          = (animate sin s now rnd).state.mouthValue
        ↔ (animate sin s now rnd).state.mouthValue = s.mouthValue)
      ∧ ((animate sin (animate sin s now rnd).state now rnd).state.smileValue
          = (animate sin s now rnd).state.smileValue
        ↔ (animate sin s now rnd).state.smileValue = s.smileValue)
      ∧ ((animate sin (animate sin s now rnd).state now rnd).state.browValue
          = (animate sin s now rnd).state.browValue
        ↔ (animate sin s now rnd).state.browValue = s.browValue)
      ∧ (m2.rotation.x = m1.rotation.x ↔ m1.rotation.x = m.rotation.x)
      ∧ (m2.rotation.y = m1.rotation.y ↔ m1.rotation.y = m.rotation.y) := by
  obtain ⟨a1, a2, a3, a4, a5, a6⟩ := animate_other sin s m now rnd hm
  obtain ⟨b1, b2, b3⟩ := animate_head sin s m now rnd hm
  obtain ⟨c1, c2, c3⟩ := animate_face_values sin s m now rnd hm
  obtain ⟨d1, d2, d3⟩ := animate_face_values sin _ _ now rnd b3
  obtain ⟨e1, e2, e3⟩ := animate_head sin _ _ now rnd b3
  have hh := headTargetStep_again sin s (animate sin s now rnd).state now (now * 0.001) rnd hi
    a1 a4 a5 a6 b2 b1
  have htm := targetMouth_congr sin s (animate sin s now rnd).state now (now * 0.001) a2 a3
  have k1 : (animate sin (animate sin s now rnd).state now rnd).state.mouthValue
          - (animate sin s now rnd).state.mouthValue
        = (1 - (if s.isTalking then 0.35 else 0.18))
          * ((animate sin s now rnd).state.mouthValue - s.mouthValue) := by
    rw [d1, a1, htm, c1]; exact lerp_step _ _ _
  have k2 : (animate sin (animate sin s now rnd).state now rnd).state.smileValue
          - (animate sin s now rnd).state.smileValue
        = (1 - (if s.isTalking then 0.15 else 0.05))
          * ((animate sin s now rnd).state.smileValue - s.smileValue) := by
    rw [d2, a1, c2]; exact lerp_step _ _ _
  have k3 : (animate sin (animate sin s now rnd).state now rnd).state.browValue
          - (animate sin s now rnd).state.browValue
        = (1 - (if s.isTalking then 0.18 else 0.05))
          * ((animate sin s now rnd).state.browValue - s.browValue) := by
    rw [d3, a1, c3]; exact lerp_step _ _ _
  refine ⟨_, _, b3, e3, k1, k2, k3, ?_, ?_, scaled_step_iff ?_ k1, scaled_step_iff ?_ k2,
    scaled_step_iff ?_ k3, scaled_step_iff (k := 1 - 0.08) (by norm_num) ?_,
    scaled_step_iff (k := 1 - 0.08) (by norm_num) ?_⟩
  · simp only [hh]; exact lerp_step _ _ _
  · simp only [hh]; exact lerp_step _ _ _
  · split_ifs <;> norm_num
  · split_ifs <;> norm_num
  · split_ifs <;> norm_num
  · simp only [hh]; exact lerp_step _ _ _
  · simp only [hh]; exact lerp_step _ _ _

/-- Witness for the amended C5: the frame at time 2050 run twice from the loaded
idle state. -/
theorem frame_twice_scaled_step_witness :
    loadedState.model = some sampleModel ∧ (0 : ℚ) ≤ rndHalf.idle
      ∧ ∃ m1 m2, (animate sinZero loadedState 2050 rndHalf).state.model = some m1
      ∧ (animate sinZero (animate sinZero loadedState 2050 rndHalf).state 2050
          rndHalf).state.model = some m2
      ∧ (animate sinZero (animate sinZero loadedState 2050 rndHalf).state 2050
            rndHalf).state.mouthValue
          - (animate sinZero loadedState 2050 rndHalf).state.mouthValue
        = (1 - (if loadedState.isTalking then 0.35 else 0.18))
          * ((animate sinZero loadedState 2050 rndHalf).state.mouthValue
            - loadedState.mouthValue)
      ∧ (animate sinZero (animate sinZero loadedState 2050 rndHalf).state 2050
            rndHalf).state.smileValue
          - (animate sinZero loadedState 2050 rndHalf).state.smileValue
        = (1 - (if loadedState.isTalking then 0.15 else 0.05))
          * ((animate sinZero loadedState 2050 rndHalf).state.smileValue
            - loadedState.smileValue)
      ∧ (animate sinZero (animate sinZero loadedState 2050 rndHalf).state 2050
            rndHalf).state.browValue
          - (animate sinZero loadedState 2050 rndHalf).state.browValue
        = (1 - (if loadedState.isTalking then 0.18 else 0.05))
          * ((animate sinZero loadedState 2050 rndHalf).state.browValue
            - loadedState.browValue)
      ∧ m2.rotation.x - m1.rotation.x = (1 - 0.08) * (m1.rotation.x - sampleModel.rotation.x)
      ∧ m2.rotation.y - m1.rotation.y = (1 - 0.08) * (m1.rotation.y - sampleModel.rotation.y)
      ∧ ((animate sinZero (animate sinZero loadedState 2050 rndHalf).state 2050
            rndHalf).state.mouthValue
          = (animate sinZero loadedState 2050 rndHalf).state.mouthValue
        ↔ (animate sinZero loadedState 2050 rndHalf).state.mouthValue
          = loadedState.mouthValue)
      ∧ ((animate sinZero (animate sinZero loadedState 2050 rndHalf).state 2050
            rndHalf).state.smileValue
          = (animate sinZero loadedState 2050 rndHalf).state.smileValue
        ↔ (animate sinZero loadedState 2050 rndHalf).state.smileValue
          = loadedState.smileValue)
      ∧ ((animate sinZero (animate sinZero loadedState 2050 rndHalf).state 2050
            rndHalf).state.browValue
          = (animate sinZero loadedState 2050 rndHalf).state.browValue
        ↔ (animate sinZero loadedState 2050 rndHalf).state.browValue
          = loadedState.browValue)
      ∧ (m2.rotation.x = m1.rotation.x ↔ m1.rotation.x = sampleModel.rotation.x)
      ∧ (m2.rotation.y = m1.rotation.y ↔ m1.rotation.y = sampleModel.rotation.y) :=
  ⟨rfl, by norm_num [rndHalf],
    frame_twice_scaled_step sinZero loadedState sampleModel 2050 rndHalf rfl
      (by norm_num [rndHalf])⟩

/-! ## C6: continuity when talking ends -/

/-- C6. With isTalking false and mouthValue m in [0,1], updateFace yields
m + 0.18 * (0 - m), so mouthValue moves by 0.18 * m ≤ 0.18; smileValue and
browValue become s + 0.05 * (0.25 - s) and b + 0.05 * (0.02 - b), so each moves
by at most 0.05 times its distance to the idle target 0.25 or 0.02. -/
theorem talk_end_continuity (sin : ℚ → ℚ) (s : State) (now t : ℚ)
    (ht : s.isTalking = false) (hm : 0 ≤ s.mouthValue ∧ s.mouthValue ≤ 1) :
    (updateFace sin s now t).1.mouthValue = s.mouthValue + 0.18 * (0 - s.mouthValue)
      ∧ |(updateFace sin s now t).1.mouthValue - s.mouthValue| = 0.18 * s.mouthValue
      ∧ |(updateFace sin s now t).1.mouthValue - s.mouthValue| ≤ 0.18
      ∧ (updateFace sin s now t).1.smileValue = s.smileValue + 0.05 * (0.25 - s.smileValue)
      ∧ |(updateFace sin s now t).1.smileValue - s.smileValue|
        ≤ 0.05 * |0.25 - s.smileValue|
      ∧ (updateFace sin s now t).1.browValue = s.browValue + 0.05 * (0.02 - s.browValue)
      ∧ |(updateFace sin s now t).1.browValue - s.browValue|
        ≤ 0.05 * |0.02 - s.browValue| := by
  obtain ⟨h1, h2, h3⟩ := updateFace_values sin s now t
  simp only [ht, Bool.false_eq_true, if_false] at h1 h2 h3
  rw [lerp_eq] at h1 h2 h3
  have e1 : (updateFace sin s now t).1.mouthValue - s.mouthValue = -(0.18 * s.mouthValue) := by
    rw [h1]; ring
  have e2 : (updateFace sin s now t).1.smileValue - s.smileValue
      = 0.05 * (0.25 - s.smileValue) := by
    rw [h2]; ring
  have e3 : (updateFace sin s now t).1.browValue - s.browValue
      = 0.05 * (0.02 - s.browValue) := by
    rw [h3]; ring
  have n1 : (0 : ℚ) ≤ 0.18 * s.mouthValue := mul_nonneg (by norm_num) hm.1
  refine ⟨h1, ?_, ?_, h2, ?_, h3, ?_⟩
  · rw [e1, abs_neg, abs_of_nonneg n1]
  · rw [e1, abs_neg, abs_of_nonneg n1]
    linarith [hm.2]
  · rw [e2, abs_mul, abs_of_nonneg (show (0 : ℚ) ≤ 0.05 by norm_num)]
  · rw [e3, abs_mul, abs_of_nonneg (show (0 : ℚ) ≤ 0.05 by norm_num)]

theorem talkEndedState_faceReachable : FaceReachable sinZero talkEndedState :=
  FaceReachable.outside (animate sinZero talkingState 2050 rndHalf).state talkEndedState
    (FaceReachable.frame talkingState 2050 rndHalf
      (FaceReachable.outside loadedState talkingState loadedState_faceReachable rfl rfl rfl)
      (by
        show (0 : ℚ) < max 1.5 (((28 : ℕ) : ℚ) / CHAR_PER_SECOND)
        exact lt_of_lt_of_le (by norm_num) (le_max_left _ _)))
    rfl rfl rfl

/-- Witness for C6: the first idle frame, at time 2066, after an utterance that
started at 2000 and ended after one talking frame at 2050. -/
theorem talk_end_continuity_witness :
    talkEndedState.isTalking = false
      ∧ (0 ≤ talkEndedState.mouthValue ∧ talkEndedState.mouthValue ≤ 1)
      ∧ (updateFace sinZero talkEndedState 2066 (2066 * 0.001)).1.mouthValue
        = talkEndedState.mouthValue + 0.18 * (0 - talkEndedState.mouthValue)
      ∧ |(updateFace sinZero talkEndedState 2066 (2066 * 0.001)).1.mouthValue
          - talkEndedState.mouthValue| = 0.18 * talkEndedState.mouthValue
      ∧ |(updateFace sinZero talkEndedState 2066 (2066 * 0.001)).1.mouthValue
          - talkEndedState.mouthValue| ≤ 0.18
      ∧ (updateFace sinZero talkEndedState 2066 (2066 * 0.001)).1.smileValue
        = talkEndedState.smileValue + 0.05 * (0.25 - talkEndedState.smileValue)
      ∧ |(updateFace sinZero talkEndedState 2066 (2066 * 0.001)).1.smileValue
          - talkEndedState.smileValue| ≤ 0.05 * |0.25 - talkEndedState.smileValue|
      ∧ (updateFace sinZero talkEndedState 2066 (2066 * 0.001)).1.browValue
        = talkEndedState.browValue + 0.05 * (0.02 - talkEndedState.browValue)
      ∧ |(updateFace sinZero talkEndedState 2066 (2066 * 0.001)).1.browValue
          - talkEndedState.browValue| ≤ 0.05 * |0.02 - talkEndedState.browValue| :=
  ⟨rfl,
    (faceReachable_inRange sinZero (fun _ => by norm_num [sinZero]) talkEndedState
      talkEndedState_faceReachable).1,
    talk_end_continuity sinZero talkEndedState 2066 (2066 * 0.001) rfl
      (faceReachable_inRange sinZero (fun _ => by norm_num [sinZero]) talkEndedState
        talkEndedState_faceReachable).1⟩

theorem pushFirst_eq (d : List (String × Nat)) (child : Object3D) (names : List String)
    (parts : List Handle) :
    pushFirst d child names parts = parts ++ exclusiveHandles d child names := by
  induction names with
  | nil => simp [pushFirst, exclusiveHandles]
  | cons n rest ih =>
    unfold pushFirst
    cases h : d.lookup n with
    | none =>
      simp only
      rw [ih]
      simp [exclusiveHandles, List.find?, isKey, h]
    | some i =>
      simp [exclusiveHandles, List.find?, isKey, h]

theorem pushEvery_eq (d : List (String × Nat)) (child : Object3D) (names : List String)
    (parts : List Handle) :
    pushEvery d child names parts = parts ++ additiveHandles d child names := by
  induction names generalizing parts with
  | nil => simp [pushEvery, additiveHandles]
  | cons n rest ih =>
    unfold pushEvery
    cases h : d.lookup n with
    | none =>
      simp only
      rw [ih]
      simp [additiveHandles, List.filter, isKey, h]
    | some i =>
      simp only
      rw [ih]
      simp [additiveHandles, List.filter, isKey, h]

theorem visitBone_parts (s : State) (child : Object3D) :
    (visitBone s child).mouthParts = s.mouthParts ∧ (visitBone s child).eyeParts = s.eyeParts
      ∧ (visitBone s child).smileParts = s.smileParts
      ∧ (visitBone s child).browParts = s.browParts := by
  unfold visitBone
  dsimp only
  split_ifs <;> exact ⟨rfl, rfl, rfl, rfl⟩

theorem exclusiveHandles_some (d : List (String × Nat)) (child : Object3D)
    (names : List String) (n : String) (i : Nat) (hn : names.find? (isKey d) = some n)
    (hi : d.lookup n = some i) : exclusiveHandles d child names = [⟨child.id, i⟩] := by
  simp [exclusiveHandles, hn, hi]

theorem exclusiveHandles_none (d : List (String × Nat)) (child : Object3D)
    (names : List String) (h : ∀ n ∈ names, d.lookup n = none) :
    exclusiveHandles d child names = [] := by
  have : names.find? (isKey d) = none := by
    rw [List.find?_eq_none]
    intro n hn
    simp [isKey, h n hn]
  simp [exclusiveHandles, this]

theorem exclusiveHandles_length (d : List (String × Nat)) (child : Object3D)
    (names : List String) :
    (exclusiveHandles d child names).length = if names.any (isKey d) then 1 else 0 := by
  unfold exclusiveHandles
  cases h : names.find? (isKey d) with
  | none =>
    have : names.any (isKey d) = false := by
      rw [List.find?_eq_none] at h
      simpa [List.any_eq_false] using h
    simp [this]
  | some n =>
    have hk : isKey d n = true := List.find?_some h
    have hmem : n ∈ names := List.mem_of_find?_eq_some h
    have : names.any (isKey d) = true := List.any_eq_true.2 ⟨n, hmem, hk⟩
    unfold isKey at hk
    cases hl : d.lookup n with
    | none => simp [hl] at hk
    | some i => simp [this, hl]

theorem additiveHandles_index (d : List (String × Nat)) (child : Object3D)
    (names : List String) :
    (additiveHandles d child names).map (fun h => h.index) = names.filterMap d.lookup
      ∧ ∀ h ∈ additiveHandles d child names, h.mesh = child.id := by
  induction names with
  | nil => simp [additiveHandles]
  | cons n rest ih =>
    unfold additiveHandles at ih ⊢
    cases hl : d.lookup n with
    | none => simpa [List.filter, isKey, hl, List.filterMap_cons] using ih
    | some i =>
      simp only [List.filter, isKey, hl, Option.isSome_some, List.filterMap_cons, Option.map_some',
        List.map_cons, List.mem_cons, forall_eq_or_imp, true_and]
      exact ⟨by rw [ih.1], ih.2⟩

theorem visit_parts (s : State) (child : Object3D) :
    (visit s child).mouthParts
        = s.mouthParts ++ meshHandles (fun d c => exclusiveHandles d c mouthNames) child
      ∧ (visit s child).smileParts
        = s.smileParts ++ meshHandles (fun d c => exclusiveHandles d c smileNames) child
      ∧ (visit s child).browParts
        = s.browParts ++ meshHandles (fun d c => exclusiveHandles d c browNames) child
      ∧ (visit s child).eyeParts
        = s.eyeParts ++ meshHandles (fun d c => additiveHandles d c eyeNames) child := by
  obtain ⟨b1, b2, b3, b4⟩ := visitBone_parts s child
  unfold visit visitMesh meshHandles
  cases hm : child.isMesh <;> cases hd : child.morphTargetDictionary <;>
    simp [b1, b2, b3, b4, pushFirst_eq, pushEvery_eq]

theorem foldl_visit_parts (nodes : List Object3D) (s : State) :
    (nodes.foldl visit s).mouthParts
        = s.mouthParts
          ++ nodes.flatMap (meshHandles (fun d c => exclusiveHandles d c mouthNames))
      ∧ (nodes.foldl visit s).smileParts
        = s.smileParts
          ++ nodes.flatMap (meshHandles (fun d c => exclusiveHandles d c smileNames))
      ∧ (nodes.foldl visit s).browParts
        = s.browParts
          ++ nodes.flatMap (meshHandles (fun d c => exclusiveHandles d c browNames))
      ∧ (nodes.foldl visit s).eyeParts
        = s.eyeParts
          ++ nodes.flatMap (meshHandles (fun d c => additiveHandles d c eyeNames)) := by
  induction nodes generalizing s with
  | nil => simp
  | cons c cs ih =>
    obtain ⟨v1, v2, v3, v4⟩ := visit_parts s c
    obtain ⟨i1, i2, i3, i4⟩ := ih (visit s c)
    simp only [List.foldl_cons, List.flatMap_cons]
    rw [i1, i2, i3, i4, v1, v2, v3, v4]
    simp only [List.append_assoc, and_self]

theorem onLoad_parts (s : State) (avatar : Avatar) (gltf : Model)
    (h : avatar.id = s.currentAvatarId) :
    (onLoad s avatar gltf).mouthParts
        = s.mouthParts
          ++ gltf.root.nodes.flatMap (meshHandles (fun d c => exclusiveHandles d c mouthNames))
      ∧ (onLoad s avatar gltf).smileParts
        = s.smileParts
          ++ gltf.root.nodes.flatMap (meshHandles (fun d c => exclusiveHandles d c smileNames))
      ∧ (onLoad s avatar gltf).browParts
        = s.browParts
          ++ gltf.root.nodes.flatMap (meshHandles (fun d c => exclusiveHandles d c browNames))
      ∧ (onLoad s avatar gltf).eyeParts
        = s.eyeParts
          ++ gltf.root.nodes.flatMap (meshHandles (fun d c => additiveHandles d c eyeNames)) := by
  unfold onLoad traverse
  rw [if_neg (not_not.2 h)]
  exact foldl_visit_parts gltf.root.nodes _

/-! ## C7: channel discovery -/

/-- C7. For a mesh with morph-target dictionary d, the traverse callback appends
to mouthParts, smileParts and browParts the handle of the first candidate name
that is a key of d (index d[n], exactly one handle) and nothing when no
candidate is a key, and appends to eyeParts one handle for every name of
eyeNames that is a key of d, in candidate-list order; the load callback for the
current avatar appends these handles for every object of the loaded scene, in
traversal order. -/
theorem channel_discovery (s : State) (child : Object3D) (d : List (String × Nat))
    (hmesh : child.isMesh = true) (hd : child.morphTargetDictionary = some d)
    (avatar : Avatar) (gltf : Model) (hcur : avatar.id = s.currentAvatarId) :
    ((visit s child).mouthParts = s.mouthParts ++ exclusiveHandles d child mouthNames
      ∧ (visit s child).smileParts = s.smileParts ++ exclusiveHandles d child smileNames
      ∧ (visit s child).browParts = s.browParts ++ exclusiveHandles d child browNames
      ∧ (visit s child).eyeParts = s.eyeParts ++ additiveHandles d child eyeNames)
      ∧ (∀ names : List String,
          (∀ n i, names.find? (isKey d) = some n → d.lookup n = some i →
            exclusiveHandles d child names = [⟨child.id, i⟩])
          ∧ ((∀ n ∈ names, d.lookup n = none) → exclusiveHandles d child names = [])
          ∧ (exclusiveHandles d child names).length = if names.any (isKey d) then 1 else 0)
      ∧ (additiveHandles d child eyeNames).map (fun h => h.index) = eyeNames.filterMap d.lookup
      ∧ (∀ h ∈ additiveHandles d child eyeNames, h.mesh = child.id)
      ∧ ((onLoad s avatar gltf).mouthParts
          = s.mouthParts ++ gltf.root.nodes.flatMap
            (meshHandles (fun d c => exclusiveHandles d c mouthNames))
        ∧ (onLoad s avatar gltf).smileParts
          = s.smileParts ++ gltf.root.nodes.flatMap
            (meshHandles (fun d c => exclusiveHandles d c smileNames))
        ∧ (onLoad s avatar gltf).browParts
          = s.browParts ++ gltf.root.nodes.flatMap
            (meshHandles (fun d c => exclusiveHandles d c browNames))
        ∧ (onLoad s avatar gltf).eyeParts
          = s.eyeParts ++ gltf.root.nodes.flatMap
            (meshHandles (fun d c => additiveHandles d c eyeNames))) := by
  have hv := visit_parts s child
  have hmh : ∀ role : List (String × Nat) → Object3D → List Handle,
      meshHandles role child = role d child := by
    intro role
    unfold meshHandles
    rw [hmesh, hd]
  simp only [hmh] at hv
  refine ⟨hv, ?_, (additiveHandles_index d child eyeNames).1,
    (additiveHandles_index d child eyeNames).2, onLoad_parts s avatar gltf hcur⟩
  intro names
  exact ⟨fun n i hn hi => exclusiveHandles_some d child names n i hn hi,
    exclusiveHandles_none d child names, exclusiveHandles_length d child names⟩

/-- Witness for C7: the mesh `sampleHead` and the load of `sampleModel` for the
default avatar, in the state after start-up. -/
theorem channel_discovery_witness :
    sampleHead.isMesh = true ∧ sampleHead.morphTargetDictionary = some sampleDict
      ∧ muhammad.id = startedState.currentAvatarId
      ∧ ((visit startedState sampleHead).mouthParts
          = startedState.mouthParts ++ exclusiveHandles sampleDict sampleHead mouthNames
        ∧ (visit startedState sampleHead).smileParts
          = startedState.smileParts ++ exclusiveHandles sampleDict sampleHead smileNames
        ∧ (visit startedState sampleHead).browParts
          = startedState.browParts ++ exclusiveHandles sampleDict sampleHead browNames
        ∧ (visit startedState sampleHead).eyeParts
          = startedState.eyeParts ++ additiveHandles sampleDict sampleHead eyeNames)
      ∧ (∀ names : List String,
          (∀ n i, names.find? (isKey sampleDict) = some n → sampleDict.lookup n = some i →
            exclusiveHandles sampleDict sampleHead names = [⟨sampleHead.id, i⟩])
          ∧ ((∀ n ∈ names, sampleDict.lookup n = none) →
            exclusiveHandles sampleDict sampleHead names = [])
          ∧ (exclusiveHandles sampleDict sampleHead names).length
            = if names.any (isKey sampleDict) then 1 else 0)
      ∧ (additiveHandles sampleDict sampleHead eyeNames).map (fun h => h.index)
        = eyeNames.filterMap sampleDict.lookup
      ∧ (∀ h ∈ additiveHandles sampleDict sampleHead eyeNames, h.mesh = sampleHead.id)
      ∧ ((onLoad startedState muhammad sampleModel).mouthParts
          = startedState.mouthParts ++ sampleModel.root.nodes.flatMap
            (meshHandles (fun d c => exclusiveHandles d c mouthNames))
        ∧ (onLoad startedState muhammad sampleModel).smileParts
          = startedState.smileParts ++ sampleModel.root.nodes.flatMap
            (meshHandles (fun d c => exclusiveHandles d c smileNames))
        ∧ (onLoad startedState muhammad sampleModel).browParts
          = startedState.browParts ++ sampleModel.root.nodes.flatMap
            (meshHandles (fun d c => exclusiveHandles d c browNames))
        ∧ (onLoad startedState muhammad sampleModel).eyeParts
          = startedState.eyeParts ++ sampleModel.root.nodes.flatMap
            (meshHandles (fun d c => additiveHandles d c eyeNames))) :=
  ⟨rfl, rfl, rfl,
    channel_discovery startedState sampleHead sampleDict rfl rfl muhammad sampleModel rfl⟩

/-! ## C8: a stale load is discarded -/

/-- C8. When a load completes for an avatar whose id differs from
currentAvatarId, the completion callback leaves model, mouthParts, eyeParts,
smileParts, browParts, chestBone, shoulderL, shoulderR and the scene unchanged;
it only disposes the loaded scene. -/
theorem stale_load_discarded (s : State) (avatar : Avatar) (gltf : Model)
    (h : avatar.id ≠ s.currentAvatarId) :
    onLoad s avatar gltf = { s with disposed := s.disposed ++ disposeModel gltf.root }
      ∧ (onLoad s avatar gltf).model = s.model
      ∧ (onLoad s avatar gltf).mouthParts = s.mouthParts
      ∧ (onLoad s avatar gltf).eyeParts = s.eyeParts
      ∧ (onLoad s avatar gltf).smileParts = s.smileParts
      ∧ (onLoad s avatar gltf).browParts = s.browParts
      ∧ (onLoad s avatar gltf).chestBone = s.chestBone
      ∧ (onLoad s avatar gltf).shoulderL = s.shoulderL
      ∧ (onLoad s avatar gltf).shoulderR = s.shoulderR
      ∧ (onLoad s avatar gltf).scene = s.scene := by
  have e : onLoad s avatar gltf
      = { s with disposed := s.disposed ++ disposeModel gltf.root } := by
    unfold onLoad
    rw [if_pos h]
  rw [e]
  exact ⟨rfl, rfl, rfl, rfl, rfl, rfl, rfl, rfl, rfl, rfl⟩

/-- Witness for C8: the load of "muhammad" completes after "anna" was
selected. -/
theorem stale_load_discarded_witness :
    muhammad.id ≠ switchedState.currentAvatarId
      ∧ onLoad switchedState muhammad sampleModel
        = { switchedState with
            disposed := switchedState.disposed ++ disposeModel sampleModel.root }
      ∧ (onLoad switchedState muhammad sampleModel).model = switchedState.model
      ∧ (onLoad switchedState muhammad sampleModel).mouthParts = switchedState.mouthParts
      ∧ (onLoad switchedState muhammad sampleModel).eyeParts = switchedState.eyeParts
      ∧ (onLoad switchedState muhammad sampleModel).smileParts = switchedState.smileParts
      ∧ (onLoad switchedState muhammad sampleModel).browParts = switchedState.browParts
      ∧ (onLoad switchedState muhammad sampleModel).chestBone = switchedState.chestBone
      ∧ (onLoad switchedState muhammad sampleModel).shoulderL = switchedState.shoulderL
      ∧ (onLoad switchedState muhammad sampleModel).shoulderR = switchedState.shoulderR
      ∧ (onLoad switchedState muhammad sampleModel).scene = switchedState.scene :=
  ⟨by decide, stale_load_discarded switchedState muhammad sampleModel (by decide)⟩

/-! ## C9: two pending loads of the same avatar -/

/-- C9, evaluation at the failing input. After start-up, selecting "anna" and
then "muhammad" again before any load completes leaves two requests for
"muhammad" pending; both pass the staleness test.  When both have completed,
the installed model is the second scene (root 20, objects 20, 21, 22), yet the
role lists hold the handles of both scenes, chestBone is bone 11 of the first
scene, and the first scene (root 10) is still in the three.js scene. -/
theorem double_load_accumulates :
    switchedBackState.pending.map (fun a => a.id) = ["muhammad", "anna", "muhammad"]
      ∧ doubleLoadState.currentAvatarId = "muhammad"
      ∧ doubleLoadState.model.map (fun m => m.root.nodes.map (fun o => o.id))
        = some [20, 21, 22]
      ∧ doubleLoadState.mouthParts = [⟨12, 2⟩, ⟨22, 2⟩]
      ∧ doubleLoadState.eyeParts = [⟨12, 0⟩, ⟨12, 1⟩, ⟨22, 0⟩, ⟨22, 1⟩]
      ∧ doubleLoadState.browParts = [⟨12, 4⟩, ⟨22, 4⟩]
      ∧ doubleLoadState.chestBone = some 11
      ∧ doubleLoadState.scene = some [10, 20] :=
  ⟨rfl, rfl, rfl, rfl, rfl, rfl, rfl, rfl⟩

/-! ## C10: talking overrides pointer and idle head logic -/

/-- C10. With isTalking true, updateHeadAndBody sets headTarget.y to
0.08 * sin(1.2 t) and headTarget.x to 0.03 * sin(1.6 t) and leaves
nextIdleHeadTurn unchanged, whatever pointerInAvatar, pointerNorm,
lastPointerLookTime, nextIdleHeadTurn and the previous headTarget are: a state
that differs only in those five gets the same headTarget and keeps its own
nextIdleHeadTurn. -/
theorem talk_overrides_head (sin : ℚ → ℚ) (s : State) (m : Model) (now t : ℚ) (rnd : Rnd)
    (ht : s.isTalking = true) (p : Bool) (pn : Vec2) (l n : ℚ) (h : Vec2) :
    (updateHeadAndBody sin s m now t rnd).1.headTarget.y = 0.08 * sin (1.2 * t)
      ∧ (updateHeadAndBody sin s m now t rnd).1.headTarget.x = 0.03 * sin (1.6 * t)
      ∧ (updateHeadAndBody sin s m now t rnd).1.nextIdleHeadTurn = s.nextIdleHeadTurn
      ∧ (updateHeadAndBody sin
          { s with
            pointerInAvatar := p
            pointerNorm := pn
            lastPointerLookTime := l
            nextIdleHeadTurn := n
            headTarget := h } m now t rnd).1.headTarget
        = (updateHeadAndBody sin s m now t rnd).1.headTarget
      ∧ (updateHeadAndBody sin
          { s with
            pointerInAvatar := p
            pointerNorm := pn
            lastPointerLookTime := l
            nextIdleHeadTurn := n
            headTarget := h } m now t rnd).1.nextIdleHeadTurn = n := by
  have e : ∀ s' : State, s'.isTalking = true →
      headTargetStep sin s' now t rnd
        = (⟨sin (t * 1.6) * 0.03, sin (t * 1.2) * 0.08⟩, s'.nextIdleHeadTurn) := by
    intro s' hs'
    unfold headTargetStep
    simp [hs']
  have e1 := e s ht
  have e2 := e { s with
      pointerInAvatar := p
      pointerNorm := pn
      lastPointerLookTime := l
      nextIdleHeadTurn := n
      headTarget := h } ht
  unfold updateHeadAndBody
  simp only [e1, e2]
  refine ⟨?_, ?_, trivial, trivial, trivial⟩
  · rw [mul_comm (1.2 : ℚ) t, mul_comm]
  · rw [mul_comm (1.6 : ℚ) t, mul_comm]

/-- Witness for C10: the talking state at time 2050, against a variant with the
pointer inside the avatar at another position. -/
theorem talk_overrides_head_witness :
    talkingState.isTalking = true
      ∧ (updateHeadAndBody sinZero talkingState sampleModel 2050 (2050 * 0.001)
          rndHalf).1.headTarget.y = 0.08 * sinZero (1.2 * (2050 * 0.001))
      ∧ (updateHeadAndBody sinZero talkingState sampleModel 2050 (2050 * 0.001)
          rndHalf).1.headTarget.x = 0.03 * sinZero (1.6 * (2050 * 0.001))
      ∧ (updateHeadAndBody sinZero talkingState sampleModel 2050 (2050 * 0.001)
          rndHalf).1.nextIdleHeadTurn = talkingState.nextIdleHeadTurn
      ∧ (updateHeadAndBody sinZero
          { talkingState with
            pointerInAvatar := true
            pointerNorm := ⟨5, -2⟩
            lastPointerLookTime := 1000
            nextIdleHeadTurn := 1500
            headTarget := ⟨1 / 10, 1 / 10⟩ } sampleModel 2050 (2050 * 0.001) rndHalf).1.headTarget
        = (updateHeadAndBody sinZero talkingState sampleModel 2050 (2050 * 0.001)
            rndHalf).1.headTarget
      ∧ (updateHeadAndBody sinZero
          { talkingState with
            pointerInAvatar := true
            pointerNorm := ⟨5, -2⟩
            lastPointerLookTime := 1000
            nextIdleHeadTurn := 1500
            headTarget := ⟨1 / 10, 1 / 10⟩ } sampleModel 2050 (2050 * 0.001)
            rndHalf).1.nextIdleHeadTurn = 1500 :=
  ⟨rfl, talk_overrides_head sinZero talkingState sampleModel 2050 (2050 * 0.001) rndHalf rfl
    true ⟨5, -2⟩ 1000 1500 ⟨1 / 10, 1 / 10⟩⟩

theorem visit_speech (s : State) (child : Object3D) :
    (visit s child).isTalking = s.isTalking
      ∧ (visit s child).speakDuration = s.speakDuration := by
  unfold visit visitMesh visitBone
  dsimp only
  cases child.isMesh <;> cases child.morphTargetDictionary <;> split_ifs <;> exact ⟨rfl, rfl⟩

theorem foldl_visit_speech (nodes : List Object3D) (s : State) :
    (nodes.foldl visit s).isTalking = s.isTalking
      ∧ (nodes.foldl visit s).speakDuration = s.speakDuration := by
  induction nodes generalizing s with
  | nil => exact ⟨rfl, rfl⟩
  | cons c cs ih =>
    obtain ⟨h1, h2⟩ := ih (visit s c)
    obtain ⟨v1, v2⟩ := visit_speech s c
    rw [List.foldl_cons, h1, h2, v1, v2]
    exact ⟨rfl, rfl⟩

theorem onLoad_speech (s : State) (avatar : Avatar) (gltf : Model) :
    (onLoad s avatar gltf).isTalking = s.isTalking
      ∧ (onLoad s avatar gltf).speakDuration = s.speakDuration := by
  unfold onLoad traverse
  split_ifs
  · exact ⟨rfl, rfl⟩
  · exact foldl_visit_speech gltf.root.nodes _

theorem loadAvatar_speech (s : State) (avatarId : String) :
    (loadAvatar s avatarId).isTalking = s.isTalking
      ∧ (loadAvatar s avatarId).speakDuration = s.speakDuration := by
  unfold loadAvatar
  cases s.scene with
  | none => exact ⟨rfl, rfl⟩
  | some sc =>
    dsimp only
    cases (AVATARS.find? (fun a => a.id == avatarId)).orElse (fun _ => AVATARS.head?) with
    | none => exact ⟨rfl, rfl⟩
    | some avatar =>
      dsimp only
      split_ifs
      · exact ⟨rfl, rfl⟩
      · cases s.model <;> exact ⟨rfl, rfl⟩

theorem loadCompleted_speech (s : State) (i : Nat) (gltf : Model) :
    (loadCompleted s i gltf).isTalking = s.isTalking
      ∧ (loadCompleted s i gltf).speakDuration = s.speakDuration := by
  unfold loadCompleted
  cases s.pending.get? i with
  | none => exact ⟨rfl, rfl⟩
  | some avatar => exact onLoad_speech _ avatar gltf

theorem animate_speech (sin : ℚ → ℚ) (s : State) (now : ℚ) (rnd : Rnd) :
    (animate sin s now rnd).state.isTalking = s.isTalking
      ∧ (animate sin s now rnd).state.speakDuration = s.speakDuration := by
  cases hm : s.model with
  | none =>
    unfold animate
    rw [hm]
    exact ⟨rfl, rfl⟩
  | some m =>
    obtain ⟨h1, -, h3, -⟩ := animate_other sin s m now rnd hm
    exact ⟨h1, h3⟩

theorem step_durationFromLength (sin : ℚ → ℚ) (s : State) (spoken : Option ℕ) (e : Event)
    (h : DurationFromLength s spoken) :
    DurationFromLength (step sin s e) (spokenStep spoken e) := by
  have keep : ∀ s' : State, s'.isTalking = s.isTalking → s'.speakDuration = s.speakDuration →
      DurationFromLength s' spoken := by
    intro s' h1 h2 ht
    rw [h1] at ht
    rw [h2]
    exact h ht
  have off : ∀ s' : State, s'.isTalking = false → DurationFromLength s' spoken := by
    intro s' h1 ht
    rw [h1] at ht
    exact absurd ht (by decide)
  cases e with
  | frame now rnd =>
    exact keep _ (animate_speech sin s now rnd).1 (animate_speech sin s now rnd).2
  | pointerEnter => exact keep _ rfl rfl
  | pointerLeave => exact keep _ rfl rfl
  | pointerMove clientX clientY left top width height now => exact keep _ rfl rfl
  | loadAvatar avatarId =>
    exact keep _ (loadAvatar_speech s avatarId).1 (loadAvatar_speech s avatarId).2
  | loadCompleted i gltf =>
    exact keep _ (loadCompleted_speech s i gltf).1 (loadCompleted_speech s i gltf).2
  | loadFailed i => exact keep _ rfl rfl
  | speakText hasSynthesis =>
    cases hasSynthesis
    · exact off _ rfl
    · exact keep _ rfl rfl
  | utteranceStart len now =>
    intro _
    exact ⟨len, rfl, by simp [step, onstart, CHAR_PER_SECOND]⟩
  | utteranceEnd => exact off _ rfl
  | utteranceError => exact off _ rfl
  | stopSpeaking hasSynthesis =>
    cases hasSynthesis
    · exact keep _ rfl rfl
    · exact off _ rfl

theorem run_durationFromLength (sin : ℚ → ℚ) (events : List Event) (s : State)
    (spoken : Option ℕ) (h : DurationFromLength s spoken) :
    DurationFromLength (events.foldl (step sin) s) (events.foldl spokenStep spoken) := by
  induction events generalizing s spoken with
  | nil => exact h
  | cons e es ih =>
    rw [List.foldl_cons, List.foldl_cons]
    exact ih _ _ (step_durationFromLength sin s spoken e h)

/-! ## C11: speech duration floor -/

/-- C11. In every state reached from a state with isTalking false through
speech events (speakText, utterance start, end, error, stopSpeaking), in any
interleaving with frames, pointer events and loader events, isTalking = true
implies speakDuration = max(1.5, len / 14) for the length len of the text of
the utterance that started last, so speakDuration ≥ 1.5 and the divisor of the
progress computation is not zero. -/
theorem speech_duration_floor (sin : ℚ → ℚ) (s : State) (h0 : s.isTalking = false)
    (events : List Event) (ht : (run sin s events).isTalking = true) :
    ∃ len : ℕ, spokenLength events = some len
      ∧ (run sin s events).speakDuration = max 1.5 ((len : ℚ) / 14)
      ∧ 1.5 ≤ (run sin s events).speakDuration
      ∧ (run sin s events).speakDuration ≠ 0 := by
  have hinv : DurationFromLength s none := by
    intro h
    rw [h0] at h
    exact absurd h (by decide)
  obtain ⟨len, h1, h2⟩ := run_durationFromLength sin events s none hinv ht
  have h3 : (1.5 : ℚ) ≤ (run sin s events).speakDuration := by
    show (1.5 : ℚ) ≤ (events.foldl (step sin) s).speakDuration
    rw [h2]
    exact le_max_left _ _
  refine ⟨len, h1, h2, h3, ?_⟩
  intro hz
  rw [hz] at h3
  norm_num at h3

/-- Witness for C11: after the default avatar has loaded, an utterance of 28
characters starts at time 2000 and one frame runs at 2050. -/
theorem speech_duration_floor_witness :
    loadedState.isTalking = false ∧ (run sinZero loadedState speechEvents).isTalking = true
      ∧ ∃ len : ℕ, spokenLength speechEvents = some len
        ∧ (run sinZero loadedState speechEvents).speakDuration = max 1.5 ((len : ℚ) / 14)
        ∧ 1.5 ≤ (run sinZero loadedState speechEvents).speakDuration
        ∧ (run sinZero loadedState speechEvents).speakDuration ≠ 0 :=
  ⟨rfl, rfl, speech_duration_floor sinZero loadedState rfl speechEvents rfl⟩

/-! ## Rounding to binary64 -/

theorem roundEven_floor_le (r : ℚ) : ⌊r⌋ ≤ roundEven r := by
  unfold roundEven
  split_ifs <;> omega

theorem roundEven_le_floor_add_one (r : ℚ) : roundEven r ≤ ⌊r⌋ + 1 := by
  unfold roundEven
  split_ifs <;> omega

theorem le_roundEven (n : ℤ) (r : ℚ) (h : (n : ℚ) ≤ r) : n ≤ roundEven r :=
  le_trans (Int.le_floor.2 h) (roundEven_floor_le r)

theorem roundEven_le (n : ℤ) (r : ℚ) (h : r ≤ (n : ℚ)) : roundEven r ≤ n := by
  have hf : ⌊r⌋ ≤ n := Int.cast_le.1 (le_trans (Int.floor_le r) h)
  rcases hf.lt_or_eq with hlt | heq
  · exact le_trans (roundEven_le_floor_add_one r) hlt
  · have hr : r - ⌊r⌋ < 1 / 2 := by
      rw [heq]
      linarith
    unfold roundEven
    rw [if_pos hr, heq]

theorem roundEven_mono (r r' : ℚ) (h : r ≤ r') : roundEven r ≤ roundEven r' := by
  have hf : ⌊r⌋ ≤ ⌊r'⌋ := Int.floor_mono h
  rcases hf.lt_or_eq with hlt | heq
  · exact le_trans (roundEven_le_floor_add_one r) (le_trans hlt (roundEven_floor_le r'))
  · unfold roundEven
    rw [← heq]
    have hfr : r - ⌊r⌋ ≤ r' - ⌊r⌋ := by linarith
    split_ifs <;> first | omega | (exfalso; linarith)

theorem binade_upper (x : ℚ) : x < 2 ^ (binadeExponent x + 1) := by
  have h1 : x < ((2 : ℕ) : ℚ) ^ (Int.log 2 x + 1) := Int.lt_zpow_succ_log_self (by norm_num) x
  have h2 : ((2 : ℕ) : ℚ) ^ (Int.log 2 x + 1) ≤ ((2 : ℕ) : ℚ) ^ (binadeExponent x + 1) :=
    zpow_le_zpow_right₀ (by norm_num) (by unfold binadeExponent; omega)
  have h3 := lt_of_lt_of_le h1 h2
  norm_num at h3
  exact h3

theorem binade_lower (x : ℚ) (hx : 0 < x) (h : -1022 ≤ Int.log 2 x) :
    2 ^ binadeExponent x ≤ x := by
  have h1 : ((2 : ℕ) : ℚ) ^ Int.log 2 x ≤ x := Int.zpow_log_le_self (by norm_num) hx
  have h2 : binadeExponent x = Int.log 2 x := by unfold binadeExponent; omega
  rw [h2]
  norm_num at h1
  exact h1

theorem quantum_pos (e : ℤ) : (0 : ℚ) < 2 ^ e := zpow_pos (by norm_num) e

theorem binary64Pos_le (x : ℚ) : binary64Pos x ≤ 2 ^ (binadeExponent x + 1) := by
  unfold binary64Pos
  have hq := quantum_pos (binadeExponent x - 52)
  have hsplit : (2 : ℚ) ^ (binadeExponent x + 1) = 2 ^ (53 : ℤ) * 2 ^ (binadeExponent x - 52) := by
    rw [← zpow_add₀ (by norm_num : (2 : ℚ) ≠ 0)]
    congr 1
    ring
  have hr : x / 2 ^ (binadeExponent x - 52) ≤ ((2 ^ 53 : ℤ) : ℚ) := by
    rw [div_le_iff₀ hq]
    have := binade_upper x
    rw [hsplit] at this
    norm_num at this ⊢
    exact le_of_lt this
  have hn := roundEven_le (2 ^ 53) _ hr
  rw [hsplit]
  have hc : ((roundEven (x / 2 ^ (binadeExponent x - 52)) : ℤ) : ℚ) ≤ 2 ^ (53 : ℤ) := by
    have : ((roundEven (x / 2 ^ (binadeExponent x - 52)) : ℤ) : ℚ) ≤ ((2 ^ 53 : ℤ) : ℚ) :=
      Int.cast_le.2 hn
    norm_num at this ⊢
    exact this
  exact mul_le_mul_of_nonneg_right hc (le_of_lt hq)

theorem le_binary64Pos (x : ℚ) (hx : 0 < x) (h : -1022 ≤ Int.log 2 x) :
    2 ^ binadeExponent x ≤ binary64Pos x := by
  unfold binary64Pos
  have hq := quantum_pos (binadeExponent x - 52)
  have hsplit : (2 : ℚ) ^ binadeExponent x = 2 ^ (52 : ℤ) * 2 ^ (binadeExponent x - 52) := by
    rw [← zpow_add₀ (by norm_num : (2 : ℚ) ≠ 0)]
    congr 1
    ring
  have hr : ((2 ^ 52 : ℤ) : ℚ) ≤ x / 2 ^ (binadeExponent x - 52) := by
    rw [le_div_iff₀ hq]
    have := binade_lower x hx h
    rw [hsplit] at this
    norm_num at this ⊢
    exact this
  have hn := le_roundEven (2 ^ 52) _ hr
  rw [hsplit]
  have hc : (2 : ℚ) ^ (52 : ℤ) ≤ ((roundEven (x / 2 ^ (binadeExponent x - 52)) : ℤ) : ℚ) := by
    have : ((2 ^ 52 : ℤ) : ℚ) ≤ ((roundEven (x / 2 ^ (binadeExponent x - 52)) : ℤ) : ℚ) :=
      Int.cast_le.2 hn
    norm_num at this ⊢
    exact this
  exact mul_le_mul_of_nonneg_right hc (le_of_lt hq)

theorem binary64Pos_nonneg (x : ℚ) (hx : 0 < x) : 0 ≤ binary64Pos x := by
  unfold binary64Pos
  have hq := quantum_pos (binadeExponent x - 52)
  have hr : ((0 : ℤ) : ℚ) ≤ x / 2 ^ (binadeExponent x - 52) := by
    rw [Int.cast_zero]
    exact le_of_lt (div_pos hx hq)
  have hn := le_roundEven 0 _ hr
  exact mul_nonneg (Int.cast_nonneg.2 hn) (le_of_lt hq)

theorem binary64Pos_mono (x y : ℚ) (hx : 0 < x) (h : x ≤ y) : binary64Pos x ≤ binary64Pos y := by
  have hy : 0 < y := lt_of_lt_of_le hx h
  have hlog : Int.log 2 x ≤ Int.log 2 y := Int.log_mono_right hx h
  have he : binadeExponent x ≤ binadeExponent y := by
    unfold binadeExponent
    omega
  rcases he.lt_or_eq with hlt | heq
  · have hly : -1022 ≤ Int.log 2 y := by
      unfold binadeExponent at hlt
      omega
    have h1 := binary64Pos_le x
    have h2 := le_binary64Pos y hy hly
    have h3 : (2 : ℚ) ^ (binadeExponent x + 1) ≤ 2 ^ binadeExponent y :=
      zpow_le_zpow_right₀ (by norm_num) (by omega)
    exact le_trans h1 (le_trans h3 h2)
  · unfold binary64Pos
    rw [heq]
    have hq := quantum_pos (binadeExponent y - 52)
    have hr : x / 2 ^ (binadeExponent y - 52) ≤ y / 2 ^ (binadeExponent y - 52) :=
      div_le_div_of_nonneg_right h (le_of_lt hq)
    exact mul_le_mul_of_nonneg_right (Int.cast_le.2 (roundEven_mono _ _ hr)) (le_of_lt hq)

theorem binary64_mono (x y : ℚ) (h : x ≤ y) : binary64 x ≤ binary64 y := by
  unfold binary64
  by_cases hx : 0 < x
  · have hy : 0 < y := lt_of_lt_of_le hx h
    rw [if_pos hx, if_pos hy]
    exact binary64Pos_mono x y hx h
  · rw [if_neg hx]
    by_cases hx' : x < 0
    · rw [if_pos hx']
      have hnx : 0 ≤ binary64Pos (-x) := binary64Pos_nonneg (-x) (by linarith)
      by_cases hy : 0 < y
      · rw [if_pos hy]
        linarith [binary64Pos_nonneg y hy]
      · rw [if_neg hy]
        by_cases hy' : y < 0
        · rw [if_pos hy']
          have := binary64Pos_mono (-y) (-x) (by linarith) (by linarith)
          linarith
        · rw [if_neg hy']
          linarith
    · rw [if_neg hx']
      have hx0 : x = 0 := le_antisymm (not_lt.1 hx) (not_lt.1 hx')
      by_cases hy : 0 < y
      · rw [if_pos hy]
        exact binary64Pos_nonneg y hy
      · rw [if_neg hy]
        have hy0 : ¬ y < 0 := by
          intro hlt
          linarith
        rw [if_neg hy0]

theorem binadeExponent_eq (x : ℚ) (e : ℤ) (he : -1022 ≤ e) (h1 : 2 ^ e ≤ x)
    (h2 : x < 2 ^ (e + 1)) : binadeExponent x = e := by
  have hx : 0 < x := lt_of_lt_of_le (quantum_pos e) h1
  have a : e ≤ Int.log 2 x := by
    rw [← Int.zpow_le_iff_le_log (by norm_num) hx]
    norm_num
    exact h1
  have b : Int.log 2 x < e + 1 := by
    rw [← Int.lt_zpow_iff_log_lt (by norm_num) hx]
    norm_num
    exact h2
  unfold binadeExponent
  omega

theorem roundEven_eq (r : ℚ) (n : ℤ) (h1 : (n : ℚ) - 1 / 2 < r) (h2 : r < (n : ℚ) + 1 / 2) :
    roundEven r = n := by
  unfold roundEven
  by_cases hn : (n : ℚ) ≤ r
  · have hf : ⌊r⌋ = n := by
      rw [Int.floor_eq_iff]
      exact ⟨hn, by linarith⟩
    rw [hf, if_pos (by linarith)]
  · have hf : ⌊r⌋ = n - 1 := by
      rw [Int.floor_eq_iff]
      push_cast
      exact ⟨by linarith, by linarith [not_le.1 hn]⟩
    have h3 : ¬ (r - ((n - 1 : ℤ) : ℚ) < 1 / 2) := by
      push_cast
      linarith
    have h4 : 1 / 2 < r - ((n - 1 : ℤ) : ℚ) := by
      push_cast
      linarith
    rw [hf, if_neg h3, if_pos h4]
    ring

theorem binary64_eq (x : ℚ) (e n : ℤ) (he : -1022 ≤ e) (h1 : 2 ^ e ≤ x) (h2 : x < 2 ^ (e + 1))
    (h3 : (n : ℚ) - 1 / 2 < x / 2 ^ (e - 52)) (h4 : x / 2 ^ (e - 52) < (n : ℚ) + 1 / 2) :
    binary64 x = n * 2 ^ (e - 52) := by
  have hx : 0 < x := lt_of_lt_of_le (quantum_pos e) h1
  unfold binary64 binary64Pos
  rw [if_pos hx, binadeExponent_eq x e he h1 h2, roundEven_eq _ n h3 h4]

theorem binary64_one : binary64 1 = 1 := by
  rw [binary64_eq 1 0 (2 ^ 52) (by norm_num) (by norm_num) (by norm_num) (by norm_num)
    (by norm_num)]
  norm_num

theorem binary64_two : binary64 2 = 2 := by
  rw [binary64_eq 2 1 (2 ^ 52) (by norm_num) (by norm_num) (by norm_num) (by norm_num)
    (by norm_num)]
  norm_num

theorem binary64_2500 : binary64 2500 = 2500 := by
  rw [binary64_eq 2500 11 (2500 * 2 ^ 41) (by norm_num) (by norm_num) (by norm_num)
    (by norm_num) (by norm_num)]
  norm_num

theorem binary64_105 : binary64 105 = 105 := by
  rw [binary64_eq 105 6 (105 * 2 ^ 46) (by norm_num) (by norm_num) (by norm_num)
    (by norm_num) (by norm_num)]
  norm_num

theorem binary64_1455 : binary64 1455 = 1455 := by
  rw [binary64_eq 1455 10 (1455 * 2 ^ 42) (by norm_num) (by norm_num) (by norm_num)
    (by norm_num) (by norm_num)]
  norm_num

theorem binary64_literal_007 : binary64 0.07 = 5044031582654956 / 2 ^ 56 := by
  rw [binary64_eq 0.07 (-4) 5044031582654956 (by norm_num) (by norm_num) (by norm_num)
    (by norm_num) (by norm_num)]
  norm_num

theorem binary64_literal_097 : binary64 0.97 = 8736983277098762 / 2 ^ 53 := by
  rw [binary64_eq 0.97 (-1) 8736983277098762 (by norm_num) (by norm_num) (by norm_num)
    (by norm_num) (by norm_num)]
  norm_num

theorem binary64_elapsed_105 : binary64 (105 / 1000) = 7566047373982433 / 2 ^ 56 := by
  rw [binary64_eq (105 / 1000) (-4) 7566047373982433 (by norm_num) (by norm_num) (by norm_num)
    (by norm_num) (by norm_num)]
  norm_num

theorem binary64_progress_105 :
    binary64 (7566047373982433 / 2 ^ 56 / (3 / 2)) = 5044031582654955 / 2 ^ 56 := by
  rw [binary64_eq (7566047373982433 / 2 ^ 56 / (3 / 2)) (-4) 5044031582654955 (by norm_num)
    (by norm_num) (by norm_num) (by norm_num) (by norm_num)]
  norm_num

theorem binary64_elapsed_1455 : binary64 (1455 / 1000) = 6552737457824072 / 2 ^ 52 := by
  rw [binary64_eq (1455 / 1000) 0 6552737457824072 (by norm_num) (by norm_num) (by norm_num)
    (by norm_num) (by norm_num)]
  norm_num

theorem binary64_progress_1455 :
    binary64 (6552737457824072 / 2 ^ 52 / (3 / 2)) = 8736983277098763 / 2 ^ 53 := by
  rw [binary64_eq (6552737457824072 / 2 ^ 52 / (3 / 2)) (-1) 8736983277098763 (by norm_num)
    (by norm_num) (by norm_num) (by norm_num) (by norm_num)]
  norm_num

/-! ## C12: talk envelope mouth target -/

theorem rounded_id (sin : ℚ → ℚ) (s : State) (now t : ℚ) :
    Rounded.progress id s now = progress s now
      ∧ Rounded.targetMouth id sin s now t = targetMouth sin s now t :=
  ⟨rfl, rfl⟩

theorem rounded_progress_mem_Icc (fl : ℚ → ℚ) (s : State) (now : ℚ) :
    0 ≤ Rounded.progress fl s now ∧ Rounded.progress fl s now ≤ 1 :=
  clamp_mem_Icc (by norm_num)

theorem rounded_progress_eq_one (fl : ℚ → ℚ) (hmono : ∀ x y, x ≤ y → fl x ≤ fl y)
    (hone : fl 1 = 1) (s : State) (later : ℚ) (hd : 0 < s.speakDuration)
    (hdur : fl s.speakDuration = s.speakDuration)
    (hexact : fl (later - s.speakStartTime) = later - s.speakStartTime)
    (hl : s.speakStartTime + 1000 * s.speakDuration ≤ later) :
    Rounded.progress fl s later = 1 := by
  have h1 : s.speakDuration ≤ (later - s.speakStartTime) / 1000 := by
    rw [le_div_iff₀ (by norm_num : (0 : ℚ) < 1000)]
    linarith
  have h2 : s.speakDuration ≤ fl ((later - s.speakStartTime) / 1000) := by
    have := hmono _ _ h1
    rwa [hdur] at this
  have h3 : 1 ≤ fl ((later - s.speakStartTime) / 1000) / s.speakDuration := by
    rw [le_div_iff₀ hd]
    linarith
  have h4 : 1 ≤ fl (fl ((later - s.speakStartTime) / 1000) / s.speakDuration) := by
    have := hmono _ _ h3
    rwa [hone] at this
  unfold Rounded.progress Rounded.elapsed clamp
  rw [hexact, min_eq_left h4]
  exact max_eq_right (by norm_num)

theorem rounded_base_low_iff (fl : ℚ → ℚ) (s : State) (now : ℚ) :
    Rounded.base fl s now = 0.1
      ↔ Rounded.progress fl s now < fl 0.07 ∨ Rounded.progress fl s now > fl 0.97 := by
  unfold Rounded.base
  split_ifs with h
  · exact ⟨fun _ => h, fun _ => rfl⟩
  · exact ⟨fun h1 => absurd h1 (by norm_num), fun h1 => absurd h1 h⟩

theorem rounded_targetMouth_mem_Icc (fl : ℚ → ℚ) (sin : ℚ → ℚ)
    (hsin : ∀ x, -1 ≤ sin x ∧ sin x ≤ 1) (s : State) (now t : ℚ) :
    0.1 ≤ Rounded.targetMouth fl sin s now t ∧ Rounded.targetMouth fl sin s now t ≤ 0.95 := by
  have hn := noise_mem_Icc sin hsin t
  unfold Rounded.targetMouth Rounded.base
  split_ifs <;> constructor <;> norm_num <;> linarith [hn.1, hn.2]

theorem talkingState_speakDuration : talkingState.speakDuration = 2 := by
  show max (1.5 : ℚ) (((28 : ℕ) : ℚ) / CHAR_PER_SECOND) = 2
  norm_num [CHAR_PER_SECOND]

theorem shortTalkState_speakDuration : shortTalkState.speakDuration = 3 / 2 := by
  show max (1.5 : ℚ) (((14 : ℕ) : ℚ) / CHAR_PER_SECOND) = 3 / 2
  norm_num [CHAR_PER_SECOND]

/-- At speakStartTime 2000, speakDuration 1.5 and now 2105 the exact quotient is
0.07, while the quotient of doubles is 5044031582654955 / 2^56, the double just
below the literal 0.07: the test of `updateFace` succeeds and base is 0.1. -/
theorem rounded_threshold_low :
    progress shortTalkState 2105 = 0.07
      ∧ Rounded.progress binary64 shortTalkState 2105 = 5044031582654955 / 2 ^ 56
      ∧ binary64 0.07 = 5044031582654956 / 2 ^ 56
      ∧ Rounded.base binary64 shortTalkState 2105 = 0.1 := by
  have hs : shortTalkState.speakStartTime = 2000 := rfl
  have hp : Rounded.progress binary64 shortTalkState 2105 = 5044031582654955 / 2 ^ 56 := by
    unfold Rounded.progress Rounded.elapsed
    rw [hs, shortTalkState_speakDuration, show (2105 : ℚ) - 2000 = 105 by norm_num,
      binary64_105, binary64_elapsed_105, binary64_progress_105]
    norm_num [clamp]
  refine ⟨?_, hp, binary64_literal_007, ?_⟩
  · unfold progress
    rw [hs, shortTalkState_speakDuration]
    norm_num [clamp]
  · rw [rounded_base_low_iff, hp, binary64_literal_007]
    left
    norm_num

/-- At speakStartTime 2000, speakDuration 1.5 and now 3455 the exact quotient is
0.97, while the quotient of doubles is 8736983277098763 / 2^53, the double just
above the literal 0.97: the test of `updateFace` succeeds and base is 0.1. -/
theorem rounded_threshold_high :
    progress shortTalkState 3455 = 0.97
      ∧ Rounded.progress binary64 shortTalkState 3455 = 8736983277098763 / 2 ^ 53
      ∧ binary64 0.97 = 8736983277098762 / 2 ^ 53
      ∧ Rounded.base binary64 shortTalkState 3455 = 0.1 := by
  have hs : shortTalkState.speakStartTime = 2000 := rfl
  have hp : Rounded.progress binary64 shortTalkState 3455 = 8736983277098763 / 2 ^ 53 := by
    unfold Rounded.progress Rounded.elapsed
    rw [hs, shortTalkState_speakDuration, show (3455 : ℚ) - 2000 = 1455 by norm_num,
      binary64_1455, binary64_elapsed_1455, binary64_progress_1455]
    norm_num [clamp]
  refine ⟨?_, hp, binary64_literal_097, ?_⟩
  · unfold progress
    rw [hs, shortTalkState_speakDuration]
    norm_num [clamp]
  · rw [rounded_base_low_iff, hp, binary64_literal_097]
    right
    norm_num

/-- C12. With every arithmetic result and literal of the progress test rounded
by a monotone rounding function fl that keeps 1 and speakDuration and maps the
literal 0.97 below 1, as rounding to doubles does: progress is
clamp((now - speakStartTime) / 1000 / speakDuration, 0, 1) in that arithmetic,
noise lies in [0,1], the mouth target is base + 0.55 * noise, where base is 0.1
exactly when progress < 0.07 or progress > 0.97 (the doubles these literals
denote) and 0.4 otherwise; the target lies in [0.1, 0.95]; and for every
timestamp later ≥ speakStartTime + 1000 * speakDuration whose difference to
speakStartTime is exact, as for the integer readings of Date.now(), progress is
1 and base is 0.1. -/
theorem talk_envelope_target (fl : ℚ → ℚ) (sin : ℚ → ℚ) (hsin : ∀ x, -1 ≤ sin x ∧ sin x ≤ 1)
    (s : State) (now t : ℚ) (hmono : ∀ x y, x ≤ y → fl x ≤ fl y) (hone : fl 1 = 1)
    (hlit : fl 0.97 < 1) (hd : 0 < s.speakDuration)
    (hdur : fl s.speakDuration = s.speakDuration) :
    Rounded.progress fl s now
        = clamp (fl (fl (fl (now - s.speakStartTime) / 1000) / s.speakDuration)) 0 1
      ∧ (0 ≤ Rounded.progress fl s now ∧ Rounded.progress fl s now ≤ 1)
      ∧ (0 ≤ noise sin t ∧ noise sin t ≤ 1)
      ∧ Rounded.targetMouth fl sin s now t = Rounded.base fl s now + 0.55 * noise sin t
      ∧ (Rounded.base fl s now = 0.1
        ↔ Rounded.progress fl s now < fl 0.07 ∨ Rounded.progress fl s now > fl 0.97)
      ∧ (¬ (Rounded.progress fl s now < fl 0.07 ∨ Rounded.progress fl s now > fl 0.97) →
          Rounded.base fl s now = 0.4)
      ∧ (0.1 ≤ Rounded.targetMouth fl sin s now t ∧ Rounded.targetMouth fl sin s now t ≤ 0.95)
      ∧ (∀ later : ℚ, fl (later - s.speakStartTime) = later - s.speakStartTime →
          s.speakStartTime + 1000 * s.speakDuration ≤ later →
          Rounded.progress fl s later = 1 ∧ Rounded.base fl s later = 0.1
            ∧ Rounded.targetMouth fl sin s later t = 0.1 + 0.55 * noise sin t) := by
  refine ⟨rfl, rounded_progress_mem_Icc fl s now, noise_mem_Icc sin hsin t, rfl,
    rounded_base_low_iff fl s now, ?_, rounded_targetMouth_mem_Icc fl sin hsin s now t, ?_⟩
  · intro h
    unfold Rounded.base
    rw [if_neg h]
  · intro later hexact hl
    have hp := rounded_progress_eq_one fl hmono hone s later hd hdur hexact hl
    have hb : Rounded.base fl s later = 0.1 :=
      (rounded_base_low_iff fl s later).2 (Or.inr (by rw [hp]; exact hlit))
    refine ⟨hp, hb, ?_⟩
    show Rounded.base fl s later + 0.55 * noise sin t = _
    rw [hb]

/-- Witness for C12, with rounding to binary64: the utterance that started at
2000 with duration 2.0 s; at time 4500, which is 2.5 s after the start,
progress is 1 and base is 0.1. -/
theorem talk_envelope_target_witness :
    (∀ x y : ℚ, x ≤ y → binary64 x ≤ binary64 y) ∧ binary64 1 = 1 ∧ binary64 0.97 < 1
      ∧ talkingState.speakStartTime = 2000 ∧ talkingState.speakDuration = 2
      ∧ binary64 talkingState.speakDuration = talkingState.speakDuration
      ∧ binary64 (4500 - talkingState.speakStartTime) = 4500 - talkingState.speakStartTime
      ∧ Rounded.progress binary64 talkingState 4500 = 1
      ∧ Rounded.base binary64 talkingState 4500 = 0.1
      ∧ Rounded.targetMouth binary64 sinZero talkingState 4500 (4500 * 0.001)
        = 0.1 + 0.55 * noise sinZero (4500 * 0.001)
      ∧ (0.1 ≤ Rounded.targetMouth binary64 sinZero talkingState 4500 (4500 * 0.001)
        ∧ Rounded.targetMouth binary64 sinZero talkingState 4500 (4500 * 0.001) ≤ 0.95) := by
  have hs : talkingState.speakStartTime = 2000 := rfl
  have hlit : binary64 0.97 < 1 := by
    rw [binary64_literal_097]
    norm_num
  have hdur : binary64 talkingState.speakDuration = talkingState.speakDuration := by
    rw [talkingState_speakDuration, binary64_two]
  have hexact : binary64 (4500 - talkingState.speakStartTime)
      = 4500 - talkingState.speakStartTime := by
    rw [hs, show (4500 : ℚ) - 2000 = 2500 by norm_num, binary64_2500]
  have h := talk_envelope_target binary64 sinZero (fun _ => by norm_num [sinZero]) talkingState
    4500 (4500 * 0.001) binary64_mono binary64_one hlit
    (by rw [talkingState_speakDuration]; norm_num) hdur
  obtain ⟨-, -, -, -, -, -, hr, hl⟩ := h
  have h2 := hl 4500 hexact (by rw [talkingState_speakDuration, hs]; norm_num)
  exact ⟨binary64_mono, binary64_one, hlit, hs, talkingState_speakDuration, hdur, hexact,
    h2.1, h2.2.1, h2.2.2, hr⟩

/-! ## C13: HTML escaping -/

theorem piece_cases (ch : Char) :
    (matchesClass ch = false ∧ piece ch = [ch])
      ∨ piece ch = "&amp;".toList ∨ piece ch = "&lt;".toList ∨ piece ch = "&gt;".toList
      ∨ piece ch = "&quot;".toList ∨ piece ch = "&#39;".toList := by
  unfold piece
  cases hm : matchesClass ch with
  | false => exact Or.inl ⟨rfl, by simp⟩
  | true =>
    right
    simp only [if_true]
    unfold replacer
    split_ifs with h1 h2 h3 h4 h5
    · exact Or.inl rfl
    · exact Or.inr (Or.inl rfl)
    · exact Or.inr (Or.inr (Or.inl rfl))
    · exact Or.inr (Or.inr (Or.inr (Or.inl rfl)))
    · exact Or.inr (Or.inr (Or.inr (Or.inr rfl)))
    · exfalso
      unfold matchesClass at hm
      simp [h1, h2, h3, h4, h5] at hm

theorem replaceAll_cons (ch : Char) (cs : List Char) :
    replaceAll (ch :: cs) = piece ch ++ replaceAll cs := by
  unfold replaceAll piece
  rw [List.flatMap_cons]

theorem piece_clean (ch x : Char) (hx : x ∈ piece ch) :
    x ≠ '<' ∧ x ≠ '>' ∧ x ≠ dquote ∧ x ≠ squote := by
  rcases piece_cases ch with ⟨hm, hp⟩ | hp | hp | hp | hp | hp
  · rw [hp, List.mem_singleton] at hx
    subst hx
    unfold matchesClass at hm
    simp only [Bool.or_eq_false_iff, beq_eq_false_iff_ne, ne_eq] at hm
    exact ⟨hm.1.1.1.2, hm.1.1.2, hm.1.2, hm.2⟩
  · rw [hp] at hx
    exact (by decide : ∀ y ∈ "&amp;".toList, y ≠ '<' ∧ y ≠ '>' ∧ y ≠ dquote ∧ y ≠ squote) x hx
  · rw [hp] at hx
    exact (by decide : ∀ y ∈ "&lt;".toList, y ≠ '<' ∧ y ≠ '>' ∧ y ≠ dquote ∧ y ≠ squote) x hx
  · rw [hp] at hx
    exact (by decide : ∀ y ∈ "&gt;".toList, y ≠ '<' ∧ y ≠ '>' ∧ y ≠ dquote ∧ y ≠ squote) x hx
  · rw [hp] at hx
    exact (by decide : ∀ y ∈ "&quot;".toList, y ≠ '<' ∧ y ≠ '>' ∧ y ≠ dquote ∧ y ≠ squote) x hx
  · rw [hp] at hx
    exact (by decide : ∀ y ∈ "&#39;".toList, y ≠ '<' ∧ y ≠ '>' ∧ y ≠ dquote ∧ y ≠ squote) x hx

theorem replaceAll_clean (cs : List Char) (x : Char) (hx : x ∈ replaceAll cs) :
    x ≠ '<' ∧ x ≠ '>' ∧ x ≠ dquote ∧ x ≠ squote := by
  induction cs with
  | nil => simp [replaceAll] at hx
  | cons c cs ih =>
    rw [replaceAll_cons, List.mem_append] at hx
    rcases hx with h | h
    · exact piece_clean c x h
    · exact ih h

theorem piece_amp (ch : Char) (i : ℕ) (rest : List Char) (h : (piece ch)[i]? = some '&') :
    i = 0 ∧ EntityAt (piece ch ++ rest) 0 := by
  unfold EntityAt
  rcases piece_cases ch with ⟨hm, hp⟩ | hp | hp | hp | hp | hp
  · rw [hp] at h
    exfalso
    cases i with
    | zero =>
      simp only [List.getElem?_cons_zero, Option.some.injEq] at h
      subst h
      exact absurd hm (by decide)
    | succ n => simp at h
  all_goals
    rw [hp] at h ⊢
    have hi : i = 0 := by
      rcases i with _ | _ | _ | _ | _ | _ | _
      · rfl
      all_goals first | exact absurd h (by decide) | simp [String.toList] at h
    refine ⟨hi, ?_⟩
    simp [String.toList]

theorem replaceAll_amp (cs : List Char) (i : ℕ) (h : (replaceAll cs)[i]? = some '&') :
    EntityAt (replaceAll cs) i := by
  induction cs generalizing i with
  | nil => simp [replaceAll] at h
  | cons c cs ih =>
    rw [replaceAll_cons] at h ⊢
    by_cases hi : i < (piece c).length
    · rw [List.getElem?_append_left hi] at h
      obtain ⟨h0, he⟩ := piece_amp c i (replaceAll cs) h
      rw [h0]
      exact he
    · have hle : (piece c).length ≤ i := not_lt.1 hi
      rw [List.getElem?_append_right hle] at h
      have hd : List.drop i (piece c ++ replaceAll cs)
          = List.drop (i - (piece c).length) (replaceAll cs) := by
        rw [List.drop_append_eq_append_drop, List.drop_of_length_le hle, List.nil_append]
      have := ih _ h
      unfold EntityAt at this ⊢
      rw [hd]
      exact this

theorem replaceAll_unchanged (cs : List Char) (h : ∀ c ∈ cs, matchesClass c = false) :
    replaceAll cs = cs := by
  induction cs with
  | nil => rfl
  | cons c cs ih =>
    rw [replaceAll_cons, ih (fun x hx => h x (List.mem_cons_of_mem c hx))]
    unfold piece
    rw [h c (List.mem_cons_self c cs)]
    rfl

theorem matchesClass_false (c : Char)
    (h : c ≠ '&' ∧ c ≠ '<' ∧ c ≠ '>' ∧ c ≠ dquote ∧ c ≠ squote) : matchesClass c = false := by
  unfold matchesClass
  simp [h.1, h.2.1, h.2.2.1, h.2.2.2.1, h.2.2.2.2]

theorem escapeHtml_sample :
    escapeHtml (some "<a href='x'>T&C</a>") = "&lt;a href=&#39;x&#39;&gt;T&amp;C&lt;/a&gt;" := by
  decide

/-- C13. For every string, and for null or undefined, the result of escapeHtml
contains none of the characters <, >, double quote and apostrophe; every & in
it starts one of the entities &amp; &lt; &gt; &quot; &#39;; a string with none
of the five characters is returned unchanged; and null, undefined and the
empty string give the empty string. -/
theorem escapeHtml_complete (str : Option String) :
    ('<' ∉ (escapeHtml str).toList ∧ '>' ∉ (escapeHtml str).toList
        ∧ dquote ∉ (escapeHtml str).toList ∧ squote ∉ (escapeHtml str).toList)
      ∧ (∀ i : ℕ, (escapeHtml str).toList[i]? = some '&' →
          EntityAt (escapeHtml str).toList i)
      ∧ ((∀ c ∈ (str.getD "").toList,
            c ≠ '&' ∧ c ≠ '<' ∧ c ≠ '>' ∧ c ≠ dquote ∧ c ≠ squote) →
          escapeHtml str = str.getD "")
      ∧ escapeHtml none = "" ∧ escapeHtml (some "") = "" := by
  have hout : (escapeHtml str).toList = replaceAll (str.getD "").toList := rfl
  rw [hout]
  refine ⟨⟨?_, ?_, ?_, ?_⟩, ?_, ?_, rfl, rfl⟩
  · exact fun h => (replaceAll_clean _ _ h).1 rfl
  · exact fun h => (replaceAll_clean _ _ h).2.1 rfl
  · exact fun h => (replaceAll_clean _ _ h).2.2.1 rfl
  · exact fun h => (replaceAll_clean _ _ h).2.2.2 rfl
  · exact fun i h => replaceAll_amp _ i h
  · intro h
    unfold escapeHtml
    rw [replaceAll_unchanged _ (fun c hc => matchesClass_false c (h c hc))]
    rfl

end BridgeAI
